import Mathlib

/-!
Shallow embedding of the `job-stash` date scheduler (TypeScript sources:
`Job.ts` with the bounded-timer chaining, `Scheduler.ts` with the MongoDB-backed
scheduling/claiming/retry pipeline, `types/types.ts` for option records).

Modelling conventions:
* JavaScript objects (job records, metadata, callback arguments) are
  insertion-ordered association lists `List (String × JVal)`; assignment
  (`setKey`) replaces the value in place if the key is present and appends the
  pair otherwise, `delete` (`eraseKey`) removes the key, spreads
  (`spreadObj b m` for `{...b, ...m}`-style literals) fold assignments.
* The MongoDB collection is a `List Obj`; `updateOne` updates the first
  matching document and reports `matchedCount`/`modifiedCount`, `insertOne`
  enforces the unique index on `jobId` with error code 11000, `deleteOne`
  removes the first matching document.
* `setTimeout`/`clearTimeout` handles are naturals handed out by a counter;
  the process-local timer state (`pending`, `scheduledJobs`) lives in
  `SchedState` together with the collection handle. `new Date()` is frozen to
  a `now : Nat` field (epoch milliseconds); its progression is irrelevant to
  the verified properties.
* User callbacks are total functions `Obj → Except ErrorInfo Unit`; `.error`
  models a throw/rejection. Async control flow is sequentialised in source
  order (a single job's pipeline runs serially between its timer firings).
-/

namespace JobStash

/-- JS values that the scheduler stores and passes around: strings, numbers
(`Date`s are their epoch milliseconds), booleans, and the string arrays used
for `errorMessages`. -/
inductive JVal where
  | str (s : String)
  | num (n : Int)
  | bool (b : Bool)
  | arr (xs : List String)
  deriving DecidableEq, Repr

/-- A JS object: insertion-ordered key/value list. Objects built by this
library have pairwise-distinct keys. -/
abbrev Obj := List (String × JVal)

/-- Key lookup in an association list (first occurrence), i.e. `o[k]`. -/
def getKey {α : Type} : List (String × α) → String → Option α
  | [], _ => none
  | p :: ps, k => if p.1 = k then some p.2 else getKey ps k

/-- Whether the key is present, i.e. `k in o`. -/
def hasKey {α : Type} : List (String × α) → String → Bool
  | [], _ => false
  | p :: ps, k => if p.1 = k then true else hasKey ps k

/-- JS assignment `o[k] = v`: overwrite in place when the key exists,
append otherwise. -/
def setKey {α : Type} : List (String × α) → String → α → List (String × α)
  | [], k, v => [(k, v)]
  | p :: ps, k, v => if p.1 = k then (k, v) :: ps else p :: setKey ps k v

/-- JS `delete o[k]`. -/
def eraseKey {α : Type} : List (String × α) → String → List (String × α)
  | [], _ => []
  | p :: ps, k => if p.1 = k then eraseKey ps k else p :: eraseKey ps k

/-- Object spread `{...b, ...m}`: fold assignments of `m` over `b`. -/
def spreadObj : Obj → Obj → Obj
  | b, [] => b
  | b, p :: ps => spreadObj (setKey b p.1 p.2) ps

/-- The keys of an object are pairwise distinct (true of every object literal
the library builds). -/
def keysNodup {α : Type} (o : List (String × α)) : Prop :=
  (o.map Prod.fst).Nodup

instance {α : Type} (o : List (String × α)) : Decidable (keysNodup o) := by
  unfold keysNodup
  infer_instance

/-! ## `Job.ts`: the unbounded timer built from `setTimeout`

`Job.scheduleJob(callback, timeRemaining, scheduledJobs)` arms one bounded
`setTimeout`: for `timeRemaining > MAX_TIME` it arms `MAX_TIME` and on firing
recursively re-arms for the remainder; otherwise it arms `timeRemaining` and
the firing runs `callback()` and nulls the table entry.  Every arm writes the
fresh timeout id into `scheduledJobs[jobId]`.  `Job.cancelJob` runs
`clearTimeout(scheduledJobs[jobId])`.

The model below tracks the single job's timer chain: `pendingT` is the armed
bounded timeout (`handle`, bounded delay, and what its firing does), `entry`
is `scheduledJobs[jobId]`, `fired` counts executions of `callback`, `elapsed`
accumulates waited milliseconds, and `nextH` generates timeout handles. -/

/-- `MAX_TIME = 0x7FFFFFFF`, the `setTimeout` delay cap (~24.8 days). -/
def MAX_TIME : Nat := 0x7FFFFFFF

/-- What a bounded timeout does when it fires: run the callback, or re-arm
the chain for the remaining delay. -/
inductive TAct where
  | fire
  | rearm (remaining : Nat)
  deriving DecidableEq, Repr

/-- The per-job timer state of `Job.scheduleJob`'s chain. -/
structure TimerSys where
  pendingT : Option (Nat × Nat × TAct)
  entry : Option Nat
  fired : Nat
  elapsed : Nat
  nextH : Nat
  deriving DecidableEq, Repr

/-- `Job.scheduleJob`: arm one bounded timeout (chaining when the delay
exceeds `MAX_TIME`) and store its handle in the timer table. -/
def armJob (timeRemaining : Nat) (s : TimerSys) : TimerSys :=
  if timeRemaining > MAX_TIME then
    { s with pendingT := some (s.nextH, MAX_TIME, .rearm (timeRemaining - MAX_TIME)),
             entry := some s.nextH,
             nextH := s.nextH + 1 }
  else
    { s with pendingT := some (s.nextH, timeRemaining, .fire),
             entry := some s.nextH,
             nextH := s.nextH + 1 }

/-- Elapse the armed timeout and run its body: either
`callback(); scheduledJobs[jobId] = undefined` or the recursive
`this.scheduleJob(callback, timeRemaining - MAX_TIME, scheduledJobs)`. -/
def fireStep (s : TimerSys) : TimerSys :=
  match s.pendingT with
  | none => s
  | some (_, delay, act) =>
    let s1 := { s with elapsed := s.elapsed + delay, pendingT := none }
    match act with
    | .fire => { s1 with fired := s1.fired + 1, entry := none }
    | .rearm remaining => armJob remaining s1

/-- `Job.cancelJob`: `clearTimeout(scheduledJobs[jobId])` — kills the armed
timeout iff the table entry references it. -/
def cancelStep (s : TimerSys) : TimerSys :=
  match s.entry, s.pendingT with
  | some e, some (h, _, _) => if e = h then { s with pendingT := none } else s
  | _, _ => s

/-- Iterate `fireStep`. -/
def runT : Nat → TimerSys → TimerSys
  | 0, s => s
  | n + 1, s => runT n (fireStep s)

/-- The table entry always references the currently armed bounded timeout. -/
def currentHandleInv (s : TimerSys) : Prop :=
  ∀ h delay act, s.pendingT = some (h, delay, act) → s.entry = some h

/-! ## `Scheduler.ts`: data model and store operations -/

/-- `SchedulerOptions` from `types/types.ts`. -/
structure SchedulerOptions where
  retryWindowInSeconds : Nat
  retryCount : Nat
  useLock : Bool
  deriving DecidableEq, Repr

/-- Defaults merged at `init`. -/
def defaultOptions : SchedulerOptions :=
  { retryWindowInSeconds := 3600, retryCount := 3, useLock := false }

/-- The `{message, stack, code}` object the catch blocks build from a thrown
error. -/
structure ErrorInfo where
  message : String
  stack : String
  code : Int
  deriving DecidableEq, Repr

/-- `JSON.stringify(errorInfo)` (braces written as escapes). -/
def stringifyError (e : ErrorInfo) : String :=
  "\x7b\"message\":\"" ++ e.message ++ "\",\"stack\":\"" ++ e.stack ++
    "\",\"code\":" ++ toString e.code ++ "\x7d"

/-- Errors surfaced by the scheduler: the three `new Error(...)` messages, the
runtime `TypeError` from touching the unassigned `jobsCollection`, and raw
store errors. -/
inductive SchedErr where
  | notInitialised
  | callbackNotFunction
  | jobIdNotUnique
  | typeError (m : String)
  | mongo (code : Int)
  deriving DecidableEq, Repr

/-- The `.message` of each surfaced error. -/
def SchedErr.message : SchedErr → String
  | .notInitialised => "Scheduler not Initialised"
  | .callbackNotFunction => "callback is not a function"
  | .jobIdNotUnique => "JobId must be unique"
  | .typeError m => m
  | .mongo code => "MongoServerError " ++ toString code

/-- The closure data `wrapCallback` bakes into a wrapped callback:
`prepareCallbackWithlock`/`prepareCallback` capture `jobId`, `dateToRunOn`,
`metadata`, and which wrapper was selected from `options.useLock`. -/
structure WrappedCb where
  jobId : String
  dateToRunOn : JVal
  metadata : Obj
  useLock : Bool
  deriving DecidableEq, Repr

/-- A live `setTimeout` armed through `Job.scheduleJob` at the scheduler
level: handle, job id, requested delay and the wrapped callback it runs. -/
structure PendingTimer where
  handle : Nat
  jobId : String
  delayMs : Int
  cb : WrappedCb
  deriving DecidableEq, Repr

/-- The static state of class `Scheduler` plus the store and timer runtime:
`jobsCollection` (`none` until `initDB` assigns it), `initialized`,
`scheduledJobs` (timer table; value `none` models a key holding `undefined`),
the in-memory `retriedCount` map, `options`, the armed timeouts, the
`setTimeout` handle counter, and the frozen wall clock. -/
structure SchedState where
  jobsCollection : Option (List Obj)
  initialized : Bool
  scheduledJobs : List (String × Option Nat)
  retriedCount : List (String × Nat)
  options : SchedulerOptions
  pending : List PendingTimer
  nextHandle : Nat
  now : Nat
  deriving DecidableEq, Repr

/-- A user callback: receives the argument object, returns normally or
throws/rejects with an error. -/
abbrev Cb := Obj → Except ErrorInfo Unit

/-- `updateOne` result fields used by `acquireLock`. -/
structure UpdateResult where
  matchedCount : Nat
  modifiedCount : Nat
  deriving DecidableEq, Repr

/-- `updateOne(filter, update)`: rewrite the first matching document, report
whether one matched and whether it actually changed. -/
def updateFirst : List Obj → (Obj → Bool) → (Obj → Obj) → List Obj × UpdateResult
  | [], _, _ => ([], { matchedCount := 0, modifiedCount := 0 })
  | doc :: docs, pred, f =>
    if pred doc then
      let doc2 := f doc
      (doc2 :: docs,
       { matchedCount := 1, modifiedCount := if doc2 = doc then 0 else 1 })
    else
      let r := updateFirst docs pred f
      (doc :: r.1, r.2)

/-- `deleteOne(filter)`: remove the first matching document. -/
def deleteFirst : List Obj → (Obj → Bool) → List Obj
  | [], _ => []
  | doc :: docs, pred => if pred doc then docs else doc :: deleteFirst docs pred

/-- `insertOne` under the unique index on `jobId`: duplicate-key signal is
Mongo error code 11000. -/
def insertUnique (coll : List Obj) (r : Obj) : Except Int (List Obj) :=
  if coll.any (fun doc => decide (getKey doc "jobId" = getKey r "jobId")) then
    .error 11000
  else .ok (coll ++ [r])

/-- The `{jobId}` filter used by the retry update, `deleteOne` and the
upsert. -/
def matchJobId (jobId : String) (doc : Obj) : Bool :=
  decide (getKey doc "jobId" = some (JVal.str jobId))

/-- The `{jobId, isActive: true, dateToRunOn}` filter of `acquireLock`. -/
def lockFilter (jobId : String) (dateToRunOn : JVal) (doc : Obj) : Bool :=
  decide (getKey doc "jobId" = some (JVal.str jobId)) &&
  decide (getKey doc "isActive" = some (JVal.bool true)) &&
  decide (getKey doc "dateToRunOn" = some dateToRunOn)

/-- `$ifNull: ["$k", dflt]` followed by numeric use: the records this library
writes only ever hold numbers in the counter fields. -/
def ifNullInt (doc : Obj) (k : String) (dflt : Int) : Int :=
  match getKey doc k with
  | some (.num n) => n
  | _ => dflt

/-- The document the callback receives: `{ jobId, dateToRunOn, ...metadata }`
(metadata spread last). -/
def callbackArg (jobId : String) (dateToRunOn : JVal) (metadata : Obj) : Obj :=
  spreadObj [("jobId", JVal.str jobId), ("dateToRunOn", dateToRunOn)] metadata

/-- The document `storeJobInDB` inserts:
`{ ...metadata, jobId, dateToRunOn, isLocked: false, isActive: true,
createdAt: new Date() }` (metadata spread first). -/
def insertedRecord (jobId : String) (dateToRunOn : JVal) (metadata : Obj)
    (now : Nat) : Obj :=
  setKey (setKey (setKey (setKey (setKey (spreadObj [] metadata)
    "jobId" (JVal.str jobId))
    "dateToRunOn" dateToRunOn)
    "isLocked" (JVal.bool false))
    "isActive" (JVal.bool true))
    "createdAt" (JVal.num now)

/-- The aggregation pipeline of `updateRetryThresholdInDB`, applied to the
matched document.  Stage 1 sets
`errorCount := ($ifNull errorCount 0) + 1`,
`retriedCount := ($ifNull retriedCount (-1)) + 1`, `isLocked := false`,
appends the serialized error to `errorMessages` and bumps `updatedAt`;
stage 2 sets `isActive := false` iff the stage-1 `retriedCount` is
`≥ options.retryCount`, else keeps the current `isActive`. -/
def retryPipeline (retryCount : Nat) (err : String) (now : Nat) (doc : Obj) :
    Obj :=
  let ec := ifNullInt doc "errorCount" 0 + 1
  let rc := ifNullInt doc "retriedCount" (-1) + 1
  let msgs : JVal :=
    match getKey doc "errorMessages" with
    | some (.arr xs) => .arr (xs ++ [err])
    | _ => .arr [err]
  let d1 := setKey (setKey (setKey (setKey (setKey doc
    "errorCount" (JVal.num ec))
    "retriedCount" (JVal.num rc))
    "isLocked" (JVal.bool false))
    "errorMessages" msgs)
    "updatedAt" (JVal.num now)
  if rc ≥ (retryCount : Int) then setKey d1 "isActive" (JVal.bool false)
  else
    match getKey d1 "isActive" with
    | some v => setKey d1 "isActive" v
    | none => eraseKey d1 "isActive"

/-! ### Scheduler operations

Each operation takes and returns a `SchedState`; the `Except` component is
the settled/rejected outcome (`.error` models a throw). -/

/-- `Scheduler.updateRetryThresholdInDB(jobId, error)`. -/
def updateRetryThresholdInDB (jobId : String) (err : String) (s : SchedState) :
    Except SchedErr Unit × SchedState :=
  match s.jobsCollection with
  | none => (.error (.typeError "Cannot read properties of undefined (reading updateOne)"), s)
  | some coll =>
    let r := updateFirst coll (matchJobId jobId)
      (retryPipeline s.options.retryCount err s.now)
    (.ok (), { s with jobsCollection := some r.1 })

/-- `Scheduler.checkIfRetryExceeded(jobId)`: seed the process-local counter
at 0 when falsy, incre­ment it, and compare against `options.retryCount`. -/
def checkIfRetryExceeded (jobId : String) (s : SchedState) :
    Bool × SchedState :=
  let c := (getKey s.retriedCount jobId).getD 0 + 1
  (decide (c > s.options.retryCount),
   { s with retriedCount := setKey s.retriedCount jobId c })

/-- `Scheduler.wrapCallback`: select the with-lock or no-lock wrapper from the
configuration resolved at wrap time. -/
def wrapCallback (s : SchedState) (jobId : String) (dateToRunOn : JVal)
    (metadata : Obj) : WrappedCb :=
  { jobId := jobId, dateToRunOn := dateToRunOn, metadata := metadata,
    useLock := s.options.useLock }

/-- `Job.scheduleJob` as invoked by the scheduler (delays in the verified
scenarios fit one bounded timeout; the chaining itself is verified on
`armJob`/`runT`): arm a fresh timeout for the wrapped callback and store its
handle in `scheduledJobs[jobId]`. -/
def armJobTimer (jobId : String) (delayMs : Int) (w : WrappedCb)
    (s : SchedState) : SchedState :=
  { s with
    pending := s.pending ++
      [{ handle := s.nextHandle, jobId := jobId, delayMs := delayMs, cb := w }],
    scheduledJobs := setKey s.scheduledJobs jobId (some s.nextHandle),
    nextHandle := s.nextHandle + 1 }

/-- `Scheduler.cancelJobFromMemory(jobId)`: clear and delete the table entry
only when it holds a truthy timeout id. -/
def cancelJobFromMemory (jobId : String) (s : SchedState) : SchedState :=
  match getKey s.scheduledJobs jobId with
  | some (some h) =>
    { s with pending := s.pending.filter (fun t => t.handle != h),
             scheduledJobs := eraseKey s.scheduledJobs jobId }
  | _ => s

/-- `Scheduler.deleteJobFromDB(jobId)`: `jobsCollection.deleteOne({jobId})`. -/
def deleteJobFromDB (jobId : String) (s : SchedState) :
    Except SchedErr Unit × SchedState :=
  match s.jobsCollection with
  | none => (.error (.typeError "Cannot read properties of undefined (reading deleteOne)"), s)
  | some coll =>
    (.ok (), { s with jobsCollection := some (deleteFirst coll (matchJobId jobId)) })

/-- `Scheduler.acquireLock(jobId, dateToRunOn)`: one conditional update,
success is the truthiness of `matchedCount && modifiedCount`. -/
def acquireLock (jobId : String) (dateToRunOn : JVal) (s : SchedState) :
    Except SchedErr Bool × SchedState :=
  match s.jobsCollection with
  | none => (.error (.typeError "Cannot read properties of undefined (reading updateOne)"), s)
  | some coll =>
    let r := updateFirst coll (lockFilter jobId dateToRunOn)
      (fun doc => setKey doc "isLocked" (JVal.bool true))
    (.ok (decide (r.2.matchedCount ≠ 0) && decide (r.2.modifiedCount ≠ 0)),
     { s with jobsCollection := some r.1 })

/-- `Scheduler.handleRetries(jobId, dateToRunOn, callback, error, metadata)`:
persist the retry transition, bump the process-local counter, and re-arm a
freshly wrapped callback for `retryWindowInSeconds × 1000` ms unless the
counter exceeded `retryCount`. -/
def handleRetries (jobId : String) (dateToRunOn : JVal) (err : String)
    (metadata : Obj) (s : SchedState) : Except SchedErr Unit × SchedState :=
  match updateRetryThresholdInDB jobId err s with
  | (.error e, s1) => (.error e, s1)
  | (.ok _, s1) =>
    let res := checkIfRetryExceeded jobId s1
    if res.1 then (.ok (), res.2)
    else
      let w := wrapCallback res.2 jobId dateToRunOn metadata
      (.ok (), armJobTimer jobId ((s.options.retryWindowInSeconds : Int) * 1000) w res.2)

/-- The success tail shared by both wrappers:
`await jobsCollection.deleteOne({ jobId })`, then
`this.retriedCount[jobId] && delete this.retriedCount[jobId]`. -/
def successCleanup (jobId : String) (s : SchedState) :
    Except SchedErr Unit × SchedState :=
  match deleteJobFromDB jobId s with
  | (.error e, s1) => (.error e, s1)
  | (.ok _, s1) =>
    if (getKey s1.retriedCount jobId).getD 0 != 0 then
      (.ok (), { s1 with retriedCount := eraseKey s1.retriedCount jobId })
    else (.ok (), s1)

/-- One firing of a wrapped callback (the armed timeout `t` elapses): the
timeout is spent, the `Job.scheduleJob` wrapper nulls `scheduledJobs[jobId]`
as soon as the async body suspends, and the body runs `prepareCallbackWithlock`
or `prepareCallback` from `Scheduler.ts`. -/
def fireWrapped (cb : Cb) (t : PendingTimer) (s0 : SchedState) :
    Except SchedErr Unit × SchedState :=
  let s1 := { s0 with pending := s0.pending.filter (fun u => u.handle != t.handle) }
  let s2 := { s1 with scheduledJobs := setKey s1.scheduledJobs t.jobId none }
  let w := t.cb
  let arg := callbackArg w.jobId w.dateToRunOn w.metadata
  if w.useLock then
    match acquireLock w.jobId w.dateToRunOn s2 with
    | (.error e, s3) =>
      let s4 := cancelJobFromMemory w.jobId s3
      handleRetries w.jobId w.dateToRunOn
        (stringifyError { message := SchedErr.message e, stack := "", code := 0 })
        w.metadata s4
    | (.ok locked, s3) =>
      if locked then
        match cb arg with
        | .ok _ => successCleanup w.jobId s3
        | .error e =>
          let s4 := cancelJobFromMemory w.jobId s3
          handleRetries w.jobId w.dateToRunOn (stringifyError e) w.metadata s4
      else
        (.ok (), cancelJobFromMemory w.jobId s3)
  else
    match cb arg with
    | .ok _ => successCleanup w.jobId s2
    | .error e =>
      let s3 := cancelJobFromMemory w.jobId s2
      handleRetries w.jobId w.dateToRunOn (stringifyError e) w.metadata s3

/-- `new Date(dateToRunOn).getTime()`. -/
def jvalTime : JVal → Int
  | .num n => n
  | _ => 0

/-- `Scheduler.storeJobInDB(jobId, dateToRunOn, metadata)`. -/
def storeJobInDB (jobId : String) (dateToRunOn : JVal) (metadata : Obj)
    (s : SchedState) : Except SchedErr Unit × SchedState :=
  match s.jobsCollection with
  | none => (.error (.typeError "Cannot read properties of undefined (reading insertOne)"), s)
  | some coll =>
    match insertUnique coll (insertedRecord jobId dateToRunOn metadata s.now) with
    | .ok coll2 => (.ok (), { s with jobsCollection := some coll2 })
    | .error code =>
      if code = 11000 then (.error .jobIdNotUnique, s)
      else (.error (.mongo code), s)

/-- `Scheduler.scheduleJob(callback, dateToRunOn, jobId, metadata)`.  The
model passes an explicit `jobId` (when absent the source generates a fresh
UUID) and models the user callback as a function, so the
`typeof callback !== "function"` guard never trips. -/
def scheduleJob (dateToRunOn : JVal) (jobId : String) (metadata : Obj)
    (s : SchedState) : Except SchedErr Unit × SchedState :=
  if s.initialized then
    match storeJobInDB jobId dateToRunOn metadata s with
    | (.error e, s1) => (.error e, s1)
    | (.ok _, s1) =>
      let w := wrapCallback s1 jobId dateToRunOn metadata
      let timeRemaining := jvalTime dateToRunOn - (s1.now : Int)
      (.ok (), armJobTimer jobId timeRemaining w s1)
  else (.error .notInitialised, s)

/-- `Scheduler.scheduleJobInMemory(callback, dateToRunOn, jobId, metadata)`:
identical arming without the insert. -/
def scheduleJobInMemory (dateToRunOn : JVal) (jobId : String) (metadata : Obj)
    (s : SchedState) : Except SchedErr Unit × SchedState :=
  if s.initialized then
    let w := wrapCallback s jobId dateToRunOn metadata
    let timeRemaining := jvalTime dateToRunOn - (s.now : Int)
    (.ok (), armJobTimer jobId timeRemaining w s)
  else (.error .notInitialised, s)

/-- `Scheduler.getAllActiveJobsFromDB()`. -/
def getAllActiveJobsFromDB (s : SchedState) :
    Except SchedErr (List Obj) × SchedState :=
  if s.initialized then
    match s.jobsCollection with
    | none => (.error (.typeError "Cannot read properties of undefined (reading find)"), s)
    | some coll =>
      (.ok (coll.filter (fun doc => decide (getKey doc "isActive" = some (JVal.bool true)))), s)
  else (.error .notInitialised, s)

/-- The string a destructured `jobId` field holds (records written by this
library always carry a string `jobId`). -/
def jvalStr : Option JVal → String
  | some (.str s) => s
  | _ => ""

/-- `Scheduler.rescheduleJobs(callback)`: for every active record,
destructure `{ jobId, dateToRunOn, ...metadata }` and arm an in-memory timer
carrying that rest-object as metadata. -/
def rescheduleJobs (s : SchedState) : Except SchedErr Unit × SchedState :=
  if s.initialized then
    match getAllActiveJobsFromDB s with
    | (.error e, s1) => (.error e, s1)
    | (.ok jobs, s1) =>
      (.ok (), jobs.foldl (fun acc job =>
        let jobId := jvalStr (getKey job "jobId")
        let dd := (getKey job "dateToRunOn").getD (JVal.num 0)
        let md := eraseKey (eraseKey job "jobId") "dateToRunOn"
        (scheduleJobInMemory dd jobId md acc).2) s1)
  else (.error .notInitialised, s)

/-- The upsert `updateJob` issues: `$setOnInsert {isLocked, isActive,
createdAt}` plus `$set {...metadata, dateToRunOn, updatedAt}`. -/
def upsertJob (jobId : String) (dateToRunOn : JVal) (metadata : Obj)
    (now : Nat) (coll : List Obj) : List Obj :=
  let setDoc := fun (doc : Obj) =>
    setKey (setKey (spreadObj doc metadata) "dateToRunOn" dateToRunOn)
      "updatedAt" (JVal.num now)
  if coll.any (matchJobId jobId) then (updateFirst coll (matchJobId jobId) setDoc).1
  else
    let base : Obj :=
      setKey (setKey (setKey [("jobId", JVal.str jobId)]
        "isLocked" (JVal.bool false))
        "isActive" (JVal.bool true))
        "createdAt" (JVal.num now)
    coll ++ [setDoc base]

/-- `Scheduler.updateJob(jobId, callback, dateToRunOn, metadata)`: clear the
in-memory timer (the TS signature types `dateToRunOn` as a `Date`, which is
always truthy), re-arm via `scheduleJobInMemory` (whose uninitialised throw
propagates), then upsert the record. -/
def updateJob (jobId : String) (dateToRunOn : JVal) (metadata : Obj)
    (s : SchedState) : Except SchedErr Unit × SchedState :=
  let s1 := { s with
    pending := match getKey s.scheduledJobs jobId with
      | some (some h) => s.pending.filter (fun u => u.handle != h)
      | _ => s.pending,
    scheduledJobs := eraseKey s.scheduledJobs jobId }
  match scheduleJobInMemory dateToRunOn jobId metadata s1 with
  | (.error e, s2) => (.error e, s2)
  | (.ok _, s2) =>
    match s2.jobsCollection with
    | none => (.error (.typeError "Cannot read properties of undefined (reading updateOne)"), s2)
    | some coll =>
      (.ok (), { s2 with jobsCollection := some (upsertJob jobId dateToRunOn metadata s2.now coll) })

/-- `cancelJob` accepts a job id string or a `Job` handle. -/
inductive JobRef where
  | byId (jobId : String)
  | byHandle (jobId : String)
  deriving DecidableEq, Repr

/-- `Scheduler.cancelJob(jobId)`: `Job.cancelJob` clears the entry's timeout
for a handle argument; a string argument present in the table is cleared too;
then the entry is deleted and the record removed from the store.  Note: no
initialisation guard. -/
def cancelJob (ref : JobRef) (s : SchedState) :
    Except SchedErr Unit × SchedState :=
  let sA := match ref with
    | .byHandle jobId =>
      match getKey s.scheduledJobs jobId with
      | some (some h) =>
        { s with pending := s.pending.filter (fun t => t.handle != h) }
      | _ => s
    | .byId _ => s
  let sB := match ref with
    | .byId jobId =>
      if hasKey sA.scheduledJobs jobId then
        match getKey sA.scheduledJobs jobId with
        | some (some h) =>
          { sA with pending := sA.pending.filter (fun t => t.handle != h) }
        | _ => sA
      else sA
    | .byHandle _ => sA
  let jobIdToDelete := match ref with
    | .byId jobId => jobId
    | .byHandle jobId => jobId
  let sC := { sB with scheduledJobs := eraseKey sB.scheduledJobs jobIdToDelete }
  deleteJobFromDB jobIdToDelete sC

/-- The always-failing user callback of the retry-exhaustion scenarios:
throws `efn arg` on every invocation. -/
def alwaysFail (efn : Obj → ErrorInfo) : Cb :=
  fun arg => .error (efn arg)

/-- Find the armed timeout for a job id. -/
def findTimer (jobId : String) (s : SchedState) : Option PendingTimer :=
  s.pending.find? (fun t => t.jobId == jobId)

/-- Drive a single job: repeatedly elapse its armed timeout and run the
wrapped callback, counting wrapped-callback invocations. -/
def runJob (cb : Cb) (jobId : String) : Nat → SchedState → SchedState × Nat
  | 0, s => (s, 0)
  | fuel + 1, s =>
    match findTimer jobId s with
    | none => (s, 0)
    | some t =>
      let s1 := (fireWrapped cb t s).2
      let r := runJob cb jobId fuel s1
      (r.1, r.2 + 1)

/-- A freshly initialised scheduler over an empty collection. -/
def initState (retryWindowInSeconds retryCount : Nat) (useLock : Bool)
    (now : Nat) : SchedState :=
  { jobsCollection := some [], initialized := true, scheduledJobs := [],
    retriedCount := [],
    options := { retryWindowInSeconds := retryWindowInSeconds,
                 retryCount := retryCount, useLock := useLock },
    pending := [], nextHandle := 1, now := now }

/-- Metadata wellformedness: none of the record fields the library itself
writes occur as metadata keys. -/
def reservedKeys : List String :=
  ["jobId", "dateToRunOn", "isLocked", "isActive", "createdAt", "updatedAt",
   "retriedCount", "errorCount", "errorMessages"]

/-- `metadata` avoids the bookkeeping keys. -/
def reservedFree (m : Obj) : Prop :=
  ∀ k ∈ reservedKeys, hasKey m k = false

instance (m : Obj) : Decidable (reservedFree m) := by
  unfold reservedFree
  infer_instance

/-- The process-local `Scheduler.retriedCount` table after `i` failures of a
single job (`{}` before the first failure). -/
def rctOf (jobId : String) (i : Nat) : List (String × Nat) :=
  if i = 0 then [] else [(jobId, i)]

/-- The persisted record after `i` applications of the retry pipeline. -/
def recStage (R : Nat) (err : String) (now : Nat) (rec0 : Obj) : Nat → Obj
  | 0 => rec0
  | i + 1 => retryPipeline R err now (recStage R err now rec0 i)

/-- The scheduler state mid-run: one armed timer for the job (handle `h`),
table entry pointing at it, record `rec` persisted, local counter table
`rct`, no-lock configuration. -/
def c1State (W R now : Nat) (jobId : String) (d : JVal) (m : Obj)
    (delay : Int) (h : Nat) (rec : Obj) (rct : List (String × Nat)) :
    SchedState :=
  { jobsCollection := some [rec], initialized := true,
    scheduledJobs := [(jobId, some h)], retriedCount := rct,
    options := { retryWindowInSeconds := W, retryCount := R, useLock := false },
    pending := [{ handle := h, jobId := jobId, delayMs := delay,
                  cb := { jobId := jobId, dateToRunOn := d, metadata := m,
                          useLock := false } }],
    nextHandle := h + 1, now := now }

/-- Along the run, the callback can never have fired more than once. -/
def firedBoundInv (base : Nat) (s : TimerSys) : Prop :=
  (s.fired = base ∧ s.pendingT ≠ none) ∨ (s.fired ≤ base + 1 ∧ s.pendingT = none)
    ∨ (s.fired = base ∧ s.pendingT = none)

/-! ## Theorems -/

theorem updateFirst_singleton_fst (doc : Obj) (pred : Obj → Bool)
    (f : Obj → Obj) (hp : pred doc = true) :
    (updateFirst [doc] pred f).1 = [f doc] := by
  simp [updateFirst, hp]


section KeyLemmas

variable {α : Type}

@[simp] theorem getKey_nil (k : String) :
    getKey ([] : List (String × α)) k = none := rfl

theorem getKey_setKey (o : List (String × α)) (k k' : String) (v : α) :
    getKey (setKey o k v) k' = if k' = k then some v else getKey o k' := by
  induction o with
  | nil =>
    by_cases h : k' = k
    · simp [setKey, getKey, h]
    · have h2 : ¬ k = k' := fun hh => h hh.symm
      simp [setKey, getKey, h, h2]
  | cons p ps ih =>
    by_cases hp : p.1 = k
    · subst hp
      by_cases h : k' = p.1
      · simp [setKey, getKey, h]
      · have h2 : ¬ p.1 = k' := fun hh => h hh.symm
        simp [setKey, getKey, h, h2]
    · simp only [setKey, hp, if_false, getKey]
      by_cases hpk' : p.1 = k'
      · have : ¬ k' = k := fun h => hp (by rw [hpk', h])
        simp [hpk', this]
      · simp [hpk', ih]

theorem getKey_eraseKey (o : List (String × α)) (k k' : String) :
    getKey (eraseKey o k) k' = if k' = k then none else getKey o k' := by
  induction o with
  | nil => simp [eraseKey, getKey]
  | cons p ps ih =>
    by_cases hp : p.1 = k
    · subst hp
      by_cases h : k' = p.1
      · subst h
        simp [eraseKey, getKey, ih]
      · have h2 : ¬ p.1 = k' := fun hh => h hh.symm
        simp [eraseKey, getKey, ih, h, h2]
    · simp only [eraseKey, hp, if_false, getKey]
      by_cases hpk' : p.1 = k'
      · have : ¬ k' = k := fun h => hp (by rw [hpk', h])
        simp [hpk', this]
      · simp [hpk', ih]

theorem getKey_append (l1 l2 : List (String × α)) (k : String) :
    getKey (l1 ++ l2) k = ((getKey l1 k).or (getKey l2 k)) := by
  induction l1 with
  | nil => simp [getKey]
  | cons p ps ih =>
    by_cases hp : p.1 = k <;> simp [getKey, hp, ih]

theorem hasKey_eq_false_iff (o : List (String × α)) (k : String) :
    hasKey o k = false ↔ getKey o k = none := by
  induction o with
  | nil => simp [hasKey, getKey]
  | cons p ps ih =>
    by_cases hp : p.1 = k <;> simp [hasKey, getKey, hp, ih]

theorem getKey_isSome_of_hasKey (o : List (String × α)) (k : String)
    (h : hasKey o k = true) : ∃ v, getKey o k = some v := by
  rcases hv : getKey o k with _ | v
  · rw [← hasKey_eq_false_iff] at hv
    rw [h] at hv
    cases hv
  · exact ⟨v, rfl⟩

theorem setKey_of_not_has (o : List (String × α)) (k : String) (v : α)
    (h : hasKey o k = false) : setKey o k v = o ++ [(k, v)] := by
  induction o with
  | nil => simp [setKey]
  | cons p ps ih =>
    simp only [hasKey] at h
    by_cases hp : p.1 = k
    · simp [hp] at h
    · simp only [hp, if_false] at h
      simp [setKey, hp, ih h]

end KeyLemmas

/-- `{...b, ...m}` when no key of `m` occurs in `b` and `m` has distinct keys:
the spread is plain concatenation. -/
theorem spreadObj_eq_append (m : Obj) : ∀ (b : Obj),
    keysNodup m → (∀ km ∈ m.map Prod.fst, hasKey b km = false) →
    spreadObj b m = b ++ m := by
  induction m with
  | nil => intro b _ _; simp [spreadObj]
  | cons p ps ih =>
    intro b hnd hdisj
    have hb : hasKey b p.1 = false := hdisj p.1 (by simp)
    have hndc : (p.1 :: ps.map Prod.fst).Nodup := by
      simpa [keysNodup] using hnd
    have hnd1 : p.1 ∉ ps.map Prod.fst := (List.nodup_cons.mp hndc).1
    have hnd2 : keysNodup ps := (List.nodup_cons.mp hndc).2
    rw [spreadObj, setKey_of_not_has _ _ _ hb,
        ih (b ++ [p]) hnd2 ?_]
    · simp
    · intro km hkm
      have hkmb : hasKey b km = false := hdisj km (by simp [hkm])
      have hkp : ¬ p.1 = km := fun h => hnd1 (h ▸ hkm)
      rw [hasKey_eq_false_iff, getKey_append,
          (hasKey_eq_false_iff b km).mp hkmb]
      simp [getKey, hkp]

theorem getKey_spreadObj_of_not_has (m : Obj) : ∀ (b : Obj) (k : String),
    hasKey m k = false → getKey (spreadObj b m) k = getKey b k := by
  induction m with
  | nil => intro b k _; simp [spreadObj]
  | cons p ps ih =>
    intro b k h
    simp only [hasKey] at h
    by_cases hp : p.1 = k
    · simp [hp] at h
    · simp only [hp, if_false] at h
      rw [spreadObj, ih _ _ h, getKey_setKey]
      have h2 : ¬ k = p.1 := fun hh => hp hh.symm
      simp [h2]

theorem getKey_of_hasKey_false {o : Obj} {k : String}
    (h : hasKey o k = false) : getKey o k = none :=
  (hasKey_eq_false_iff o k).mp h

theorem hasKey_of_getKey_some {α : Type} {o : List (String × α)} {k : String}
    {v : α} (h : getKey o k = some v) : hasKey o k = true := by
  by_contra hc
  rw [Bool.not_eq_true] at hc
  rw [(hasKey_eq_false_iff o k).mp hc] at h
  cases h

theorem getKey_spreadObj_of_get (m : Obj) : ∀ (b : Obj) (k : String) (v : JVal),
    keysNodup m → getKey m k = some v →
    getKey (spreadObj b m) k = some v := by
  induction m with
  | nil => intro b k v _ h; simp [getKey] at h
  | cons p ps ih =>
    intro b k v hnd h
    have hndc : (p.1 :: ps.map Prod.fst).Nodup := by
      simpa [keysNodup] using hnd
    have hnd1 : p.1 ∉ ps.map Prod.fst := (List.nodup_cons.mp hndc).1
    have hnd2 : keysNodup ps := (List.nodup_cons.mp hndc).2
    by_cases hp : p.1 = k
    · simp only [getKey, hp, if_true, Option.some.injEq] at h
      have hps : hasKey ps k = false := by
        by_contra hc
        rw [Bool.not_eq_false] at hc
        have hmem : k ∈ ps.map Prod.fst := by
          clear ih h hnd hndc hnd1 hnd2
          induction ps with
          | nil => simp [hasKey] at hc
          | cons q qs ihq =>
            simp only [hasKey] at hc
            by_cases hq : q.1 = k
            · simp [← hq]
            · simp only [hq, if_false] at hc
              simp [ihq hc]
        exact hnd1 (hp ▸ hmem)
      rw [spreadObj, getKey_spreadObj_of_not_has _ _ _ hps, getKey_setKey]
      simp [hp, h]
    · simp only [getKey, hp, if_false] at h
      rw [spreadObj]
      exact ih _ _ _ hnd2 h

theorem max_time_pos : 0 < MAX_TIME := by decide

theorem armJob_of_gt (d : Nat) (s : TimerSys) (h : d > MAX_TIME) :
    armJob d s =
      { s with pendingT := some (s.nextH, MAX_TIME, .rearm (d - MAX_TIME)),
               entry := some s.nextH, nextH := s.nextH + 1 } := by
  rw [armJob, if_pos h]

theorem armJob_of_le (d : Nat) (s : TimerSys) (h : ¬ d > MAX_TIME) :
    armJob d s =
      { s with pendingT := some (s.nextH, d, .fire),
               entry := some s.nextH, nextH := s.nextH + 1 } := by
  rw [armJob, if_neg h]

theorem fireStep_of_none (s : TimerSys) (h : s.pendingT = none) :
    fireStep s = s := by
  rw [fireStep, h]

theorem runT_of_none (n : Nat) (s : TimerSys) (h : s.pendingT = none) :
    runT n s = s := by
  induction n with
  | zero => rfl
  | succ n ih => rw [runT, fireStep_of_none s h, ih]

/-- Running the chain armed by `Job.scheduleJob` to completion (any fuel of at
least `d + 1` bounded timeouts suffices, since every re-arm strictly shrinks
the remainder) fires the callback exactly once after a cumulative wait equal
to the requested delay, then leaves nothing armed. -/
theorem runT_armJob (d : Nat) : ∀ (fuel : Nat) (s : TimerSys), d + 1 ≤ fuel →
    (runT fuel (armJob d s)).pendingT = none ∧
    (runT fuel (armJob d s)).entry = none ∧
    (runT fuel (armJob d s)).fired = s.fired + 1 ∧
    (runT fuel (armJob d s)).elapsed = s.elapsed + d := by
  induction d using Nat.strong_induction_on with
  | _ d ih =>
    intro fuel s hfuel
    have hM : 0 < MAX_TIME := max_time_pos
    by_cases h : d > MAX_TIME
    · rcases fuel with _ | f
      · omega
      · rw [armJob_of_gt d s h]
        rw [runT]
        have hfs : fireStep
            { s with pendingT := some (s.nextH, MAX_TIME, .rearm (d - MAX_TIME)),
                     entry := some s.nextH, nextH := s.nextH + 1 } =
            armJob (d - MAX_TIME)
              { pendingT := none, entry := some s.nextH, fired := s.fired,
                elapsed := s.elapsed + MAX_TIME, nextH := s.nextH + 1 } := by
          rw [fireStep]
        rw [hfs]
        have hrec := ih (d - MAX_TIME) (by omega) f
          { pendingT := none, entry := some s.nextH, fired := s.fired,
            elapsed := s.elapsed + MAX_TIME, nextH := s.nextH + 1 } (by omega)
        refine ⟨hrec.1, hrec.2.1, hrec.2.2.1, ?_⟩
        rw [hrec.2.2.2]
        show s.elapsed + MAX_TIME + (d - MAX_TIME) = s.elapsed + d
        omega
    · rcases fuel with _ | f
      · omega
      · rw [armJob_of_le d s h]
        rw [runT]
        have hfs : fireStep
            { s with pendingT := some (s.nextH, d, .fire),
                     entry := some s.nextH, nextH := s.nextH + 1 } =
            { pendingT := none, entry := none, fired := s.fired + 1,
              elapsed := s.elapsed + d, nextH := s.nextH + 1 } := by
          rw [fireStep]
        rw [hfs, runT_of_none f _ rfl]
        exact ⟨rfl, rfl, rfl, rfl⟩

theorem firedBoundInv_armJob (base d : Nat) (s : TimerSys)
    (hb : s.fired = base) : firedBoundInv base (armJob d s) := by
  by_cases h : d > MAX_TIME
  · rw [armJob_of_gt d s h]
    exact Or.inl ⟨hb, by simp⟩
  · rw [armJob_of_le d s h]
    exact Or.inl ⟨hb, by simp⟩

theorem firedBoundInv_fireStep (base : Nat) (s : TimerSys)
    (hs : firedBoundInv base s) : firedBoundInv base (fireStep s) := by
  rcases hp : s.pendingT with _ | ⟨⟨h0, delay, act⟩⟩
  · rw [fireStep_of_none s hp]
    exact hs
  · rw [fireStep, hp]
    rcases act with _ | remaining
    · have hbase : s.fired = base := by
        rcases hs with ⟨hb, _⟩ | ⟨_, hnone⟩ | ⟨_, hnone⟩
        · exact hb
        · rw [hp] at hnone; cases hnone
        · rw [hp] at hnone; cases hnone
      exact Or.inr (Or.inl ⟨by simp [hbase], rfl⟩)
    · have hbase : s.fired = base := by
        rcases hs with ⟨hb, _⟩ | ⟨_, hnone⟩ | ⟨_, hnone⟩
        · exact hb
        · rw [hp] at hnone; cases hnone
        · rw [hp] at hnone; cases hnone
      exact firedBoundInv_armJob base remaining _ hbase

theorem firedBoundInv_runT (base n : Nat) (s : TimerSys)
    (hs : firedBoundInv base s) : firedBoundInv base (runT n s) := by
  induction n generalizing s with
  | zero => exact hs
  | succ n ihn => exact ihn _ (firedBoundInv_fireStep base s hs)

theorem fired_le_of_firedBoundInv (base : Nat) (s : TimerSys)
    (hs : firedBoundInv base s) : s.fired ≤ base + 1 := by
  rcases hs with ⟨hb, _⟩ | ⟨hb, _⟩ | ⟨hb, _⟩ <;> omega

theorem currentHandleInv_armJob (d : Nat) (s : TimerSys) :
    currentHandleInv (armJob d s) := by
  intro h delay act hp
  by_cases hd : d > MAX_TIME
  · rw [armJob_of_gt d s hd] at hp ⊢
    simp at hp ⊢
    exact hp.1
  · rw [armJob_of_le d s hd] at hp ⊢
    simp at hp ⊢
    exact hp.1

theorem currentHandleInv_fireStep (s : TimerSys) (hs : currentHandleInv s) :
    currentHandleInv (fireStep s) := by
  rcases hp : s.pendingT with _ | ⟨⟨h0, delay, act⟩⟩
  · rw [fireStep_of_none s hp]
    exact hs
  · rw [fireStep, hp]
    rcases act with _ | remaining
    · intro h delay act hcontra
      simp at hcontra
    · exact currentHandleInv_armJob _ _

theorem currentHandleInv_runT (n : Nat) (s : TimerSys)
    (hs : currentHandleInv s) : currentHandleInv (runT n s) := by
  induction n generalizing s with
  | zero => exact hs
  | succ n ih => exact ih _ (currentHandleInv_fireStep s hs)

theorem cancelStep_pendingT_none (s : TimerSys) (hs : currentHandleInv s) :
    (cancelStep s).pendingT = none := by
  rw [cancelStep]
  rcases hp : s.pendingT with _ | ⟨⟨h0, delay, act⟩⟩
  · rcases he : s.entry with _ | e <;> simp [hp]
  · rw [hs h0 delay act hp]
    simp

theorem cancelStep_fired (s : TimerSys) : (cancelStep s).fired = s.fired := by
  rw [cancelStep]
  rcases s.entry with _ | e
  · rfl
  · rcases hp : s.pendingT with _ | ⟨⟨h0, delay, act⟩⟩
    · rfl
    · dsimp only
      split <;> rfl

/-- After `clearTimeout` on the table entry, no further step ever fires. -/
theorem cancel_stops_firing (s : TimerSys) (hs : currentHandleInv s) (j : Nat) :
    (runT j (cancelStep s)).fired = s.fired := by
  rw [runT_of_none j _ (cancelStep_pendingT_none s hs), cancelStep_fired]



/-! ### Field lemmas for the record builders -/

theorem getKey_insertedRecord_jobId (jobId : String) (d : JVal) (m : Obj)
    (now : Nat) :
    getKey (insertedRecord jobId d m now) "jobId" = some (JVal.str jobId) := by
  simp [insertedRecord, getKey_setKey]

theorem getKey_insertedRecord_dateToRunOn (jobId : String) (d : JVal) (m : Obj)
    (now : Nat) :
    getKey (insertedRecord jobId d m now) "dateToRunOn" = some d := by
  simp [insertedRecord, getKey_setKey]

theorem getKey_insertedRecord_isLocked (jobId : String) (d : JVal) (m : Obj)
    (now : Nat) :
    getKey (insertedRecord jobId d m now) "isLocked" = some (JVal.bool false) := by
  simp [insertedRecord, getKey_setKey]

theorem getKey_insertedRecord_isActive (jobId : String) (d : JVal) (m : Obj)
    (now : Nat) :
    getKey (insertedRecord jobId d m now) "isActive" = some (JVal.bool true) := by
  simp [insertedRecord, getKey_setKey]

theorem getKey_insertedRecord_retriedCount (jobId : String) (d : JVal) (m : Obj)
    (now : Nat) (hm : reservedFree m) :
    getKey (insertedRecord jobId d m now) "retriedCount" = none := by
  have h1 : hasKey m "retriedCount" = false := hm "retriedCount" (by decide)
  simp [insertedRecord, getKey_setKey, getKey_spreadObj_of_not_has _ _ _ h1]

theorem getKey_insertedRecord_errorCount (jobId : String) (d : JVal) (m : Obj)
    (now : Nat) (hm : reservedFree m) :
    getKey (insertedRecord jobId d m now) "errorCount" = none := by
  have h1 : hasKey m "errorCount" = false := hm "errorCount" (by decide)
  simp [insertedRecord, getKey_setKey, getKey_spreadObj_of_not_has _ _ _ h1]

theorem getKey_insertedRecord_errorMessages (jobId : String) (d : JVal) (m : Obj)
    (now : Nat) (hm : reservedFree m) :
    getKey (insertedRecord jobId d m now) "errorMessages" = none := by
  have h1 : hasKey m "errorMessages" = false := hm "errorMessages" (by decide)
  simp [insertedRecord, getKey_setKey, getKey_spreadObj_of_not_has _ _ _ h1]

/-- Stage 1 of the retry pipeline leaves any key other than the five it sets
unchanged; this covers `jobId`, `dateToRunOn`, `createdAt`, `isActive`. -/
theorem getKey_retryPipeline_of_ne (retryCount : Nat) (err : String)
    (now : Nat) (doc : Obj) (k : String)
    (h1 : k ≠ "errorCount") (h2 : k ≠ "retriedCount") (h3 : k ≠ "isLocked")
    (h4 : k ≠ "errorMessages") (h5 : k ≠ "updatedAt") (h6 : k ≠ "isActive") :
    getKey (retryPipeline retryCount err now doc) k = getKey doc k := by
  rw [retryPipeline]
  split
  · simp [getKey_setKey, h1, h2, h3, h4, h5, h6]
  · split
    · simp [getKey_setKey, h1, h2, h3, h4, h5, h6]
    · simp [getKey_setKey, getKey_eraseKey, h1, h2, h3, h4, h5, h6]

theorem getKey_retryPipeline_retriedCount (retryCount : Nat) (err : String)
    (now : Nat) (doc : Obj) :
    getKey (retryPipeline retryCount err now doc) "retriedCount" =
      some (JVal.num (ifNullInt doc "retriedCount" (-1) + 1)) := by
  rw [retryPipeline]
  split
  · simp [getKey_setKey]
  · split
    · simp [getKey_setKey]
    · simp [getKey_setKey, getKey_eraseKey]

theorem getKey_retryPipeline_errorCount (retryCount : Nat) (err : String)
    (now : Nat) (doc : Obj) :
    getKey (retryPipeline retryCount err now doc) "errorCount" =
      some (JVal.num (ifNullInt doc "errorCount" 0 + 1)) := by
  rw [retryPipeline]
  split
  · simp [getKey_setKey]
  · split
    · simp [getKey_setKey]
    · simp [getKey_setKey, getKey_eraseKey]

theorem getKey_retryPipeline_isLocked (retryCount : Nat) (err : String)
    (now : Nat) (doc : Obj) :
    getKey (retryPipeline retryCount err now doc) "isLocked" =
      some (JVal.bool false) := by
  rw [retryPipeline]
  split
  · simp [getKey_setKey]
  · split
    · simp [getKey_setKey]
    · simp [getKey_setKey, getKey_eraseKey]

theorem getKey_retryPipeline_updatedAt (retryCount : Nat) (err : String)
    (now : Nat) (doc : Obj) :
    getKey (retryPipeline retryCount err now doc) "updatedAt" =
      some (JVal.num now) := by
  rw [retryPipeline]
  split
  · simp [getKey_setKey]
  · split
    · simp [getKey_setKey]
    · simp [getKey_setKey, getKey_eraseKey]

theorem getKey_retryPipeline_errorMessages (retryCount : Nat) (err : String)
    (now : Nat) (doc : Obj) :
    getKey (retryPipeline retryCount err now doc) "errorMessages" =
      some (match getKey doc "errorMessages" with
            | some (.arr xs) => JVal.arr (xs ++ [err])
            | _ => JVal.arr [err]) := by
  rw [retryPipeline]
  split
  · simp [getKey_setKey]
  · split
    · simp [getKey_setKey]
    · simp [getKey_setKey, getKey_eraseKey]

theorem getKey_retryPipeline_isActive_of_ge (retryCount : Nat) (err : String)
    (now : Nat) (doc : Obj)
    (h : ifNullInt doc "retriedCount" (-1) + 1 ≥ (retryCount : Int)) :
    getKey (retryPipeline retryCount err now doc) "isActive" =
      some (JVal.bool false) := by
  rw [retryPipeline, if_pos h]
  simp [getKey_setKey]

theorem getKey_retryPipeline_isActive_of_lt (retryCount : Nat) (err : String)
    (now : Nat) (doc : Obj)
    (h : ¬ ifNullInt doc "retriedCount" (-1) + 1 ≥ (retryCount : Int)) :
    getKey (retryPipeline retryCount err now doc) "isActive" =
      getKey doc "isActive" := by
  rw [retryPipeline, if_neg h]
  have hmid : getKey (setKey (setKey (setKey (setKey (setKey doc
      "errorCount" (JVal.num (ifNullInt doc "errorCount" 0 + 1)))
      "retriedCount" (JVal.num (ifNullInt doc "retriedCount" (-1) + 1)))
      "isLocked" (JVal.bool false))
      "errorMessages" (match getKey doc "errorMessages" with
        | some (.arr xs) => JVal.arr (xs ++ [err])
        | _ => JVal.arr [err]))
      "updatedAt" (JVal.num now)) "isActive" = getKey doc "isActive" := by
    simp [getKey_setKey]
  rcases hA : getKey doc "isActive" with _ | v
  · rw [hmid.trans hA]
    simp only
    rw [getKey_eraseKey]
    simp [hA]
  · rw [hmid.trans hA]
    simp only
    rw [getKey_setKey]
    simp [hA]

/-! ### The retry-exhaustion run of a single always-failing job -/

theorem getKey_rctOf (jobId : String) (i : Nat) :
    (getKey (rctOf jobId i) jobId).getD 0 = i := by
  rcases i with _ | n
  · simp [rctOf, getKey]
  · simp [rctOf, getKey]

theorem setKey_rctOf (jobId : String) (i : Nat) :
    setKey (rctOf jobId i) jobId (i + 1) = rctOf jobId (i + 1) := by
  rcases i with _ | n <;> simp [rctOf, setKey]

theorem recStage_jobId (R : Nat) (err : String) (now : Nat) (rec0 : Obj)
    (jobId : String) (h0 : getKey rec0 "jobId" = some (JVal.str jobId)) :
    ∀ i, getKey (recStage R err now rec0 i) "jobId" = some (JVal.str jobId) := by
  intro i
  induction i with
  | zero => exact h0
  | succ n ih =>
    rw [recStage, getKey_retryPipeline_of_ne _ _ _ _ _
      (by decide) (by decide) (by decide) (by decide) (by decide) (by decide)]
    exact ih

theorem recStage_retried (R : Nat) (err : String) (now : Nat) (rec0 : Obj)
    (h0 : getKey rec0 "retriedCount" = none) :
    ∀ i, getKey (recStage R err now rec0 i) "retriedCount" =
      if i = 0 then none else some (JVal.num ((i : Int) - 1)) := by
  intro i
  induction i with
  | zero => simpa using h0
  | succ n ih =>
    rw [recStage, getKey_retryPipeline_retriedCount]
    rcases n with _ | n2
    · simp at ih
      simp [ifNullInt, ih]
    · simp at ih
      simp only [ifNullInt, ih]
      have : ((n2 : Int) + 1 - 1) + 1 = ((n2 + 1 + 1 : Nat) : Int) - 1 := by
        push_cast
        omega
      simp [this]

/-- The stage-1 value `($ifNull retriedCount -1) + 1` at stage `i` is `i`. -/
theorem recStage_rcNew (R : Nat) (err : String) (now : Nat) (rec0 : Obj)
    (h0 : getKey rec0 "retriedCount" = none) (i : Nat) :
    ifNullInt (recStage R err now rec0 i) "retriedCount" (-1) + 1 = (i : Int) := by
  have h := recStage_retried R err now rec0 h0 i
  rcases i with _ | n
  · simp at h
    simp [ifNullInt, h]
  · simp at h
    simp only [ifNullInt, h]
    push_cast
    omega

theorem recStage_isActive_true (R : Nat) (err : String) (now : Nat)
    (rec0 : Obj) (h0A : getKey rec0 "isActive" = some (JVal.bool true))
    (h0 : getKey rec0 "retriedCount" = none) :
    ∀ i, i ≤ R → getKey (recStage R err now rec0 i) "isActive" =
      some (JVal.bool true) := by
  intro i
  induction i with
  | zero => intro _; exact h0A
  | succ n ih =>
    intro hle
    rw [recStage, getKey_retryPipeline_isActive_of_lt]
    · exact ih (by omega)
    · rw [recStage_rcNew R err now rec0 h0 n]
      have : (n : Int) < (R : Int) := by exact_mod_cast Nat.lt_of_succ_le hle
      omega

theorem recStage_isActive_final (R : Nat) (err : String) (now : Nat)
    (rec0 : Obj) (h0 : getKey rec0 "retriedCount" = none) :
    getKey (recStage R err now rec0 (R + 1)) "isActive" =
      some (JVal.bool false) := by
  rw [recStage, getKey_retryPipeline_isActive_of_ge]
  rw [recStage_rcNew R err now rec0 h0 R]

/-- One firing of the always-failing wrapped callback from a mid-run state:
the persisted record goes through the retry pipeline, the local counter is
bumped, and a retry timer is armed iff the bumped counter has not exceeded
`retryCount`. -/
theorem c1_fire_step (W R now : Nat) (jobId : String) (d : JVal) (m : Obj)
    (efn : Obj → ErrorInfo) (delay : Int) (h : Nat) (rec : Obj)
    (rct : List (String × Nat)) (c0 : Nat)
    (hrec : getKey rec "jobId" = some (JVal.str jobId))
    (hrct : (getKey rct jobId).getD 0 = c0) :
    fireWrapped (alwaysFail efn)
        { handle := h, jobId := jobId, delayMs := delay,
          cb := { jobId := jobId, dateToRunOn := d, metadata := m,
                  useLock := false } }
        (c1State W R now jobId d m delay h rec rct) =
      (.ok (),
        if c0 + 1 > R then
          { jobsCollection := some [retryPipeline R
              (stringifyError (efn (callbackArg jobId d m))) now rec],
            initialized := true, scheduledJobs := [(jobId, none)],
            retriedCount := setKey rct jobId (c0 + 1),
            options := { retryWindowInSeconds := W, retryCount := R,
                         useLock := false },
            pending := [], nextHandle := h + 1, now := now }
        else
          c1State W R now jobId d m ((W : Int) * 1000) (h + 1)
            (retryPipeline R (stringifyError (efn (callbackArg jobId d m))) now rec)
            (setKey rct jobId (c0 + 1))) := by
  have hpred : matchJobId jobId rec = true := by
    simp [matchJobId, hrec]
  by_cases hc : c0 + 1 > R
  · rw [if_pos hc]
    simp only [fireWrapped, c1State, alwaysFail, cancelJobFromMemory,
      handleRetries, updateRetryThresholdInDB, checkIfRetryExceeded,
      updateFirst, successCleanup, armJobTimer, wrapCallback]
    simp [setKey, getKey, hpred, hrct, hc, bne_self_eq_false,
      updateFirst_singleton_fst _ _ _ hpred]
  · rw [if_neg hc]
    simp only [fireWrapped, c1State, alwaysFail, cancelJobFromMemory,
      handleRetries, updateRetryThresholdInDB, checkIfRetryExceeded,
      updateFirst, successCleanup, armJobTimer, wrapCallback]
    simp [setKey, getKey, hpred, hrct, hc, bne_self_eq_false,
      updateFirst_singleton_fst _ _ _ hpred]

theorem runJob_no_timer (cb : Cb) (jobId : String) (fuel : Nat)
    (s : SchedState) (h : findTimer jobId s = none) :
    runJob cb jobId fuel s = (s, 0) := by
  rcases fuel with _ | f <;> simp [runJob, h]

theorem findTimer_c1State (W R now : Nat) (jobId : String) (d : JVal)
    (m : Obj) (delay : Int) (h : Nat) (rec : Obj) (rct : List (String × Nat)) :
    findTimer jobId (c1State W R now jobId d m delay h rec rct) =
      some { handle := h, jobId := jobId, delayMs := delay,
             cb := { jobId := jobId, dateToRunOn := d, metadata := m,
                     useLock := false } } := by
  simp [findTimer, c1State, List.find?]

/-- The failing run from stage `i` (with `i + j + 1 = R + 1` firings left):
exactly `j + 1` more wrapped-callback invocations happen and the run ends with
the abandoned record, a spent table entry, and no armed timer. -/
theorem c1_run (W R now : Nat) (jobId : String) (d : JVal) (m : Obj)
    (efn : Obj → ErrorInfo) (rec0 : Obj)
    (h0 : getKey rec0 "jobId" = some (JVal.str jobId)) :
    ∀ (j fuel : Nat), j + 2 ≤ fuel → ∀ (i : Nat), i + (j + 1) = R + 1 →
    ∀ (delay : Int) (h : Nat),
    runJob (alwaysFail efn) jobId fuel
      (c1State W R now jobId d m delay h
        (recStage R (stringifyError (efn (callbackArg jobId d m))) now rec0 i)
        (rctOf jobId i)) =
    ({ jobsCollection := some [recStage R
          (stringifyError (efn (callbackArg jobId d m))) now rec0 (R + 1)],
       initialized := true, scheduledJobs := [(jobId, none)],
       retriedCount := [(jobId, R + 1)],
       options := { retryWindowInSeconds := W, retryCount := R,
                    useLock := false },
       pending := [], nextHandle := h + (j + 1), now := now }, j + 1) := by
  intro j
  induction j with
  | zero =>
    intro fuel hfuel i hi delay h
    rcases fuel with _ | f
    · omega
    have hiR : i = R := by omega
    rw [runJob]
    rw [findTimer_c1State]
    simp only
    rw [c1_fire_step W R now jobId d m efn delay h _ _ i
      (recStage_jobId R _ now rec0 jobId h0 i) (getKey_rctOf jobId i)]
    rw [if_pos (by omega : i + 1 > R)]
    simp only
    rw [runJob_no_timer _ _ _ _ (by simp [findTimer])]
    have hrct : setKey (rctOf jobId i) jobId (i + 1) = rctOf jobId (i + 1) :=
      setKey_rctOf jobId i
    rw [hrct]
    have hrec : retryPipeline R (stringifyError (efn (callbackArg jobId d m)))
        now (recStage R (stringifyError (efn (callbackArg jobId d m))) now rec0 i) =
        recStage R (stringifyError (efn (callbackArg jobId d m))) now rec0 (i + 1) := by
      rw [recStage]
    rw [hrec, hiR]
    simp [rctOf]
  | succ n ih =>
    intro fuel hfuel i hi delay h
    rcases fuel with _ | f
    · omega
    rw [runJob]
    rw [findTimer_c1State]
    simp only
    rw [c1_fire_step W R now jobId d m efn delay h _ _ i
      (recStage_jobId R _ now rec0 jobId h0 i) (getKey_rctOf jobId i)]
    rw [if_neg (by omega : ¬ i + 1 > R)]
    have hrct : setKey (rctOf jobId i) jobId (i + 1) = rctOf jobId (i + 1) :=
      setKey_rctOf jobId i
    have hrec : retryPipeline R (stringifyError (efn (callbackArg jobId d m)))
        now (recStage R (stringifyError (efn (callbackArg jobId d m))) now rec0 i) =
        recStage R (stringifyError (efn (callbackArg jobId d m))) now rec0 (i + 1) := by
      rw [recStage]
    rw [hrct, hrec]
    rw [ih f (by omega) (i + 1) (by omega) ((W : Int) * 1000) (h + 1)]
    have : h + 1 + (n + 1) = h + (n + 1 + 1) := by omega
    rw [this]

/-- After `scheduleJob` on a fresh initialised scheduler, the state is the
stage-0 mid-run state. -/
theorem scheduleJob_initState (W R now : Nat) (jobId : String) (d : JVal)
    (m : Obj) (useLockFlag : Bool) :
    scheduleJob d jobId m (initState W R useLockFlag now) =
      (.ok (),
       { jobsCollection := some [insertedRecord jobId d m now],
         initialized := true, scheduledJobs := [(jobId, some 1)],
         retriedCount := [],
         options := { retryWindowInSeconds := W, retryCount := R,
                      useLock := useLockFlag },
         pending := [{ handle := 1, jobId := jobId,
                       delayMs := jvalTime d - (now : Int),
                       cb := { jobId := jobId, dateToRunOn := d, metadata := m,
                               useLock := useLockFlag } }],
         nextHandle := 2, now := now }) := by
  simp [scheduleJob, initState, storeJobInDB, insertUnique, armJobTimer,
    wrapCallback, setKey]

/-- C1: for a job whose callback fails on every invocation (single process,
default no-lock flow), the wrapped callback is invoked exactly
`retryCount + 1` times in total; after the final failing attempt no further
timer is armed, and the persisted record is retained (not deleted) with
`isActive = false`. -/
theorem retryExhaustionAttempts (W R now : Nat) (jobId : String) (d : JVal)
    (m : Obj) (efn : Obj → ErrorInfo) (fuel : Nat)
    (hm : reservedFree m) (hfuel : R + 2 ≤ fuel) :
    (runJob (alwaysFail efn) jobId fuel
        (scheduleJob d jobId m (initState W R false now)).2).2 = R + 1 ∧
    findTimer jobId (runJob (alwaysFail efn) jobId fuel
        (scheduleJob d jobId m (initState W R false now)).2).1 = none ∧
    ∃ rec,
      (runJob (alwaysFail efn) jobId fuel
        (scheduleJob d jobId m (initState W R false now)).2).1.jobsCollection =
        some [rec] ∧
      getKey rec "jobId" = some (JVal.str jobId) ∧
      getKey rec "isActive" = some (JVal.bool false) := by
  have hs1 : (scheduleJob d jobId m (initState W R false now)).2 =
      c1State W R now jobId d m (jvalTime d - (now : Int)) 1
        (recStage R (stringifyError (efn (callbackArg jobId d m))) now
          (insertedRecord jobId d m now) 0)
        (rctOf jobId 0) := by
    rw [scheduleJob_initState]
    simp [c1State, recStage, rctOf]
  rw [hs1]
  rw [c1_run W R now jobId d m efn (insertedRecord jobId d m now)
    (getKey_insertedRecord_jobId jobId d m now) R fuel (by omega) 0 (by omega)
    (jvalTime d - (now : Int)) 1]
  refine ⟨rfl, by simp [findTimer], _, rfl, ?_, ?_⟩
  · exact recStage_jobId R _ now _ jobId
      (getKey_insertedRecord_jobId jobId d m now) (R + 1)
  · exact recStage_isActive_final R _ now _
      (getKey_insertedRecord_retriedCount jobId d m now hm)

/-- Witness for C1 at concrete inputs (`retryCount = 3`, metadata
`{op: "x"}`, a callback that always throws). -/
theorem retryExhaustionAttempts_witness :
    reservedFree [("op", JVal.str "x")] ∧ (3 : Nat) + 2 ≤ 6 ∧
    (runJob (alwaysFail (fun _ => { message := "boom", stack := "st", code := 5 }))
        "j1" 6
        (scheduleJob (JVal.num 5000) "j1" [("op", JVal.str "x")]
          (initState 10 3 false 0)).2).2 = 3 + 1 :=
  ⟨by decide, by decide,
    (retryExhaustionAttempts 10 3 0 "j1" (JVal.num 5000) [("op", JVal.str "x")]
      (fun _ => { message := "boom", stack := "st", code := 5 }) 6
      (by decide) (by decide)).1⟩

/-- C9: the decision whether to arm a further retry is taken from the
process-local `Scheduler.retriedCount` counter, which starts at 0 in every
process lifetime, not from the persisted `retriedCount` field: a job
rehydrated with a positive persisted `retriedCount` still gets a retry timer
after a failure whenever the process-local count stays `≤ retryCount`, in the
same cycle in which the atomic transition durably sets `isActive = false`. -/
theorem retryDecisionProcessLocal (W R now : Nat) (jobId : String) (d : JVal)
    (m : Obj) (efn : Obj → ErrorInfo) (delay : Int) (p : Int)
    (hp : 0 < p) (hR : 1 ≤ R) (hthresh : (R : Int) ≤ p + 1) :
    (∃ rec2,
      ((fireWrapped (alwaysFail efn)
        { handle := 1, jobId := jobId, delayMs := delay,
          cb := { jobId := jobId, dateToRunOn := d, metadata := m,
                  useLock := false } }
        (c1State W R now jobId d m delay 1
          (setKey (insertedRecord jobId d m now) "retriedCount" (JVal.num p))
          [])).2).jobsCollection = some [rec2] ∧
      getKey rec2 "isActive" = some (JVal.bool false)) ∧
    (∃ t, findTimer jobId
      ((fireWrapped (alwaysFail efn)
        { handle := 1, jobId := jobId, delayMs := delay,
          cb := { jobId := jobId, dateToRunOn := d, metadata := m,
                  useLock := false } }
        (c1State W R now jobId d m delay 1
          (setKey (insertedRecord jobId d m now) "retriedCount" (JVal.num p))
          [])).2) = some t) ∧
    ((fireWrapped (alwaysFail efn)
        { handle := 1, jobId := jobId, delayMs := delay,
          cb := { jobId := jobId, dateToRunOn := d, metadata := m,
                  useLock := false } }
        (c1State W R now jobId d m delay 1
          (setKey (insertedRecord jobId d m now) "retriedCount" (JVal.num p))
          [])).2).retriedCount = [(jobId, 1)] := by
  have hrec : getKey (setKey (insertedRecord jobId d m now) "retriedCount"
      (JVal.num p)) "jobId" = some (JVal.str jobId) := by
    rw [getKey_setKey]
    simp [getKey_insertedRecord_jobId]
  have hrct : (getKey ([] : List (String × Nat)) jobId).getD 0 = 0 := by simp
  rw [c1_fire_step W R now jobId d m efn delay 1 _ _ 0 hrec hrct]
  rw [if_neg (by omega : ¬ 0 + 1 > R)]
  refine ⟨⟨retryPipeline R (stringifyError (efn (callbackArg jobId d m))) now
      (setKey (insertedRecord jobId d m now) "retriedCount" (JVal.num p)),
      rfl, ?_⟩, ?_, ?_⟩
  · apply getKey_retryPipeline_isActive_of_ge
    have hget : getKey (setKey (insertedRecord jobId d m now) "retriedCount"
        (JVal.num p)) "retriedCount" = some (JVal.num p) := by
      rw [getKey_setKey]
      simp
    rw [ifNullInt, hget]
    show p + 1 ≥ (R : Int)
    omega
  · rw [findTimer_c1State]
    exact ⟨_, rfl⟩
  · simp [c1State, setKey]

/-- Witness for C9 at `retryCount = 3`, persisted `retriedCount = 3`. -/
theorem retryDecisionProcessLocal_witness :
    (0 : Int) < 3 ∧ 1 ≤ (3 : Nat) ∧ ((3 : Nat) : Int) ≤ 3 + 1 ∧
    ((fireWrapped (alwaysFail (fun _ => { message := "boom", stack := "st", code := 5 }))
        { handle := 1, jobId := "j1", delayMs := 5,
          cb := { jobId := "j1", dateToRunOn := JVal.num 5000,
                  metadata := [("op", JVal.str "x")], useLock := false } }
        (c1State 10 3 0 "j1" (JVal.num 5000) [("op", JVal.str "x")] 5 1
          (setKey (insertedRecord "j1" (JVal.num 5000) [("op", JVal.str "x")] 0)
            "retriedCount" (JVal.num 3))
          [])).2).retriedCount = [("j1", 1)] :=
  ⟨by decide, by decide, by decide,
    (retryDecisionProcessLocal 10 3 0 "j1" (JVal.num 5000) [("op", JVal.str "x")]
      (fun _ => { message := "boom", stack := "st", code := 5 }) 5 3
      (by decide) (by decide) (by decide)).2.2⟩

/-- C5: for every delay `d > 0`, `Job.scheduleJob` fires the action exactly
once after a cumulative wait equal to `d`: if `d ≤ MAX_TIME` a single bounded
timeout of `d` is armed firing directly, otherwise a bounded timeout of
`MAX_TIME` is armed whose firing re-arms for `d − MAX_TIME`; on every arm and
re-arm the timer-table entry is the currently active bounded-timeout handle,
so that a cancel issued at any point during the chain stops any future
firing. -/
theorem unboundedTimerChain (d : Nat) (s : TimerSys) (hd : 0 < d) :
    ((d ≤ MAX_TIME → armJob d s =
        { s with pendingT := some (s.nextH, d, .fire),
                 entry := some s.nextH, nextH := s.nextH + 1 }) ∧
     (MAX_TIME < d → armJob d s =
        { s with pendingT := some (s.nextH, MAX_TIME, .rearm (d - MAX_TIME)),
                 entry := some s.nextH, nextH := s.nextH + 1 })) ∧
    (∀ fuel, d + 1 ≤ fuel →
      (runT fuel (armJob d s)).fired = s.fired + 1 ∧
      (runT fuel (armJob d s)).elapsed = s.elapsed + d ∧
      (runT fuel (armJob d s)).pendingT = none) ∧
    (∀ k, (runT k (armJob d s)).fired ≤ s.fired + 1) ∧
    (∀ k, currentHandleInv (runT k (armJob d s))) ∧
    (∀ k j, (runT j (cancelStep (runT k (armJob d s)))).fired =
            (runT k (armJob d s)).fired) := by
  refine ⟨⟨fun hle => armJob_of_le d s (by omega), fun hgt => armJob_of_gt d s hgt⟩,
    ?_, ?_, ?_, ?_⟩
  · intro fuel hfuel
    have h := runT_armJob d fuel s hfuel
    exact ⟨h.2.2.1, h.2.2.2, h.1⟩
  · intro k
    exact fired_le_of_firedBoundInv s.fired _
      (firedBoundInv_runT s.fired k _ (firedBoundInv_armJob s.fired d s rfl))
  · intro k
    exact currentHandleInv_runT k _ (currentHandleInv_armJob d s)
  · intro k j
    exact cancel_stops_firing _ (currentHandleInv_runT k _ (currentHandleInv_armJob d s)) j

/-- Witness for C5 at a delay of two-and-a-half bounded timeouts. -/
theorem unboundedTimerChain_witness :
    0 < (5368709117 : Nat) ∧
    ∀ k, currentHandleInv (runT k (armJob 5368709117
      { pendingT := none, entry := none, fired := 0, elapsed := 0, nextH := 1 })) :=
  ⟨by decide,
    (unboundedTimerChain 5368709117
      { pendingT := none, entry := none, fired := 0, elapsed := 0, nextH := 1 }
      (by decide)).2.2.2.1⟩

theorem setKey_setKey {α : Type} (o : List (String × α)) (k : String)
    (v v' : α) : setKey (setKey o k v) k v' = setKey o k v' := by
  induction o with
  | nil => simp [setKey]
  | cons p ps ih =>
    by_cases hp : p.1 = k
    · simp [setKey, hp]
    · simp [setKey, hp, ih]

theorem updateFirst_singleton (doc : Obj) (pred : Obj → Bool) (f : Obj → Obj)
    (hp : pred doc = true) :
    updateFirst [doc] pred f =
      ([f doc], { matchedCount := 1,
                  modifiedCount := if f doc = doc then 0 else 1 }) := by
  simp [updateFirst, hp]

theorem updateFirst_counts (coll : List Obj) (pred : Obj → Bool)
    (f : Obj → Obj) :
    ((updateFirst coll pred f).2.matchedCount = 0 ∨
     (updateFirst coll pred f).2.matchedCount = 1) ∧
    ((updateFirst coll pred f).2.modifiedCount = 0 ∨
     (updateFirst coll pred f).2.modifiedCount = 1) := by
  induction coll with
  | nil => simp [updateFirst]
  | cons doc docs ih =>
    rw [updateFirst]
    by_cases hp : pred doc = true
    · rw [if_pos hp]
      refine ⟨Or.inr rfl, ?_⟩
      dsimp only
      split
      · exact Or.inl rfl
      · exact Or.inr rfl
    · rw [if_neg hp]
      exact ih

theorem lockFilter_insertedRecord (jobId : String) (d : JVal) (m : Obj)
    (now : Nat) :
    lockFilter jobId d (insertedRecord jobId d m now) = true := by
  simp [lockFilter, getKey_insertedRecord_jobId, getKey_insertedRecord_isActive,
    getKey_insertedRecord_dateToRunOn]

theorem lockFilter_locked_insertedRecord (jobId : String) (d : JVal) (m : Obj)
    (now : Nat) :
    lockFilter jobId d
      (setKey (insertedRecord jobId d m now) "isLocked" (JVal.bool true)) = true := by
  simp [lockFilter, getKey_setKey, getKey_insertedRecord_jobId,
    getKey_insertedRecord_isActive, getKey_insertedRecord_dateToRunOn]

theorem setLock_ne_insertedRecord (jobId : String) (d : JVal) (m : Obj)
    (now : Nat) :
    ¬ setKey (insertedRecord jobId d m now) "isLocked" (JVal.bool true) =
      insertedRecord jobId d m now := by
  intro h
  have h1 : getKey (setKey (insertedRecord jobId d m now) "isLocked"
      (JVal.bool true)) "isLocked" = some (JVal.bool true) := by
    rw [getKey_setKey]
    simp
  rw [h, getKey_insertedRecord_isLocked] at h1
  cases h1

/-- C2: `acquireLock` reports success iff its single conditional update —
match `{jobId, isActive: true, dateToRunOn}`, set `{isLocked: true}` —
matched and modified exactly one record; of two claims against the same
unlocked active record with matching due time, exactly the first succeeds;
and on the failed claim the firing is a no-op: no error, the user callback is
never invoked (the firing is independent of it), the collection is unchanged
and the local timer entry holds no live handle. -/
theorem tryClaimExclusivity (W R now : Nat) (jobId : String) (d : JVal)
    (m : Obj) (delay : Int) (h9 : Nat) :
    (∀ (s' : SchedState) (coll : List Obj), s'.jobsCollection = some coll →
      ((acquireLock jobId d s').1 = .ok true ↔
        ((updateFirst coll (lockFilter jobId d)
            (fun doc => setKey doc "isLocked" (JVal.bool true))).2.matchedCount = 1 ∧
         (updateFirst coll (lockFilter jobId d)
            (fun doc => setKey doc "isLocked" (JVal.bool true))).2.modifiedCount = 1))) ∧
    (acquireLock jobId d
      { jobsCollection := some [insertedRecord jobId d m now],
        initialized := true, scheduledJobs := [], retriedCount := [],
        options := { retryWindowInSeconds := W, retryCount := R, useLock := true },
        pending := [], nextHandle := 1, now := now }).1 = .ok true ∧
    (acquireLock jobId d
      (acquireLock jobId d
        { jobsCollection := some [insertedRecord jobId d m now],
          initialized := true, scheduledJobs := [], retriedCount := [],
          options := { retryWindowInSeconds := W, retryCount := R, useLock := true },
          pending := [], nextHandle := 1, now := now }).2).1 = .ok false ∧
    (∀ cb : Cb,
      fireWrapped cb
        { handle := h9, jobId := jobId, delayMs := delay,
          cb := { jobId := jobId, dateToRunOn := d, metadata := m,
                  useLock := true } }
        { jobsCollection := some [setKey (insertedRecord jobId d m now)
            "isLocked" (JVal.bool true)],
          initialized := true, scheduledJobs := [(jobId, some h9)],
          retriedCount := [],
          options := { retryWindowInSeconds := W, retryCount := R, useLock := true },
          pending := [{ handle := h9, jobId := jobId, delayMs := delay,
                        cb := { jobId := jobId, dateToRunOn := d, metadata := m,
                                useLock := true } }],
          nextHandle := h9 + 1, now := now } =
      (.ok (),
        { jobsCollection := some [setKey (insertedRecord jobId d m now)
            "isLocked" (JVal.bool true)],
          initialized := true, scheduledJobs := [(jobId, none)],
          retriedCount := [],
          options := { retryWindowInSeconds := W, retryCount := R, useLock := true },
          pending := [], nextHandle := h9 + 1, now := now })) := by
  refine ⟨?_, ?_, ?_, ?_⟩
  · intro s' coll hcoll
    rw [acquireLock, hcoll]
    simp only
    have hc := updateFirst_counts coll (lockFilter jobId d)
      (fun doc => setKey doc "isLocked" (JVal.bool true))
    constructor
    · intro h
      simp only [Except.ok.injEq] at h
      rw [Bool.and_eq_true, decide_eq_true_eq, decide_eq_true_eq] at h
      omega
    · intro h
      simp only [Except.ok.injEq]
      rw [Bool.and_eq_true, decide_eq_true_eq, decide_eq_true_eq]
      omega
  · have h1 : acquireLock jobId d
        { jobsCollection := some [insertedRecord jobId d m now],
          initialized := true, scheduledJobs := [], retriedCount := [],
          options := { retryWindowInSeconds := W, retryCount := R, useLock := true },
          pending := [], nextHandle := 1, now := now } =
        (.ok true,
         { jobsCollection := some [setKey (insertedRecord jobId d m now)
             "isLocked" (JVal.bool true)],
           initialized := true, scheduledJobs := [], retriedCount := [],
           options := { retryWindowInSeconds := W, retryCount := R, useLock := true },
           pending := [], nextHandle := 1, now := now }) := by
      rw [acquireLock]
      simp only
      rw [updateFirst_singleton _ _ _ (lockFilter_insertedRecord jobId d m now)]
      rw [if_neg (setLock_ne_insertedRecord jobId d m now)]
      simp
    rw [h1]
  · have h1 : acquireLock jobId d
        { jobsCollection := some [insertedRecord jobId d m now],
          initialized := true, scheduledJobs := [], retriedCount := [],
          options := { retryWindowInSeconds := W, retryCount := R, useLock := true },
          pending := [], nextHandle := 1, now := now } =
        (.ok true,
         { jobsCollection := some [setKey (insertedRecord jobId d m now)
             "isLocked" (JVal.bool true)],
           initialized := true, scheduledJobs := [], retriedCount := [],
           options := { retryWindowInSeconds := W, retryCount := R, useLock := true },
           pending := [], nextHandle := 1, now := now }) := by
      rw [acquireLock]
      simp only
      rw [updateFirst_singleton _ _ _ (lockFilter_insertedRecord jobId d m now)]
      rw [if_neg (setLock_ne_insertedRecord jobId d m now)]
      simp
    rw [h1]
    simp only
    rw [acquireLock]
    simp only
    rw [updateFirst_singleton _ _ _ (lockFilter_locked_insertedRecord jobId d m now)]
    rw [if_pos (setKey_setKey (insertedRecord jobId d m now) "isLocked"
      (JVal.bool true) (JVal.bool true))]
    simp
  · intro cb
    simp only [fireWrapped, acquireLock]
    rw [updateFirst_singleton _ _ _ (lockFilter_locked_insertedRecord jobId d m now)]
    rw [if_pos (setKey_setKey (insertedRecord jobId d m now) "isLocked"
      (JVal.bool true) (JVal.bool true))]
    simp [cancelJobFromMemory, setKey, getKey, bne_self_eq_false,
      setKey_setKey]

/-- Witness for C2: the success-iff characterisation discharged at a concrete
one-record collection. -/
theorem tryClaimExclusivity_witness :
    (acquireLock "j1" (JVal.num 5000)
      { jobsCollection := some [insertedRecord "j1" (JVal.num 5000)
          [("op", JVal.str "x")] 0],
        initialized := true, scheduledJobs := [], retriedCount := [],
        options := { retryWindowInSeconds := 10, retryCount := 3, useLock := true },
        pending := [], nextHandle := 1, now := 0 }).1 = .ok true ∧
    ((acquireLock "j1" (JVal.num 5000)
      { jobsCollection := some [insertedRecord "j1" (JVal.num 5000)
          [("op", JVal.str "x")] 0],
        initialized := true, scheduledJobs := [], retriedCount := [],
        options := { retryWindowInSeconds := 10, retryCount := 3, useLock := true },
        pending := [], nextHandle := 1, now := 0 }).1 = .ok true ↔
      ((updateFirst [insertedRecord "j1" (JVal.num 5000) [("op", JVal.str "x")] 0]
          (lockFilter "j1" (JVal.num 5000))
          (fun doc => setKey doc "isLocked" (JVal.bool true))).2.matchedCount = 1 ∧
       (updateFirst [insertedRecord "j1" (JVal.num 5000) [("op", JVal.str "x")] 0]
          (lockFilter "j1" (JVal.num 5000))
          (fun doc => setKey doc "isLocked" (JVal.bool true))).2.modifiedCount = 1)) :=
  ⟨(tryClaimExclusivity 10 3 0 "j1" (JVal.num 5000) [("op", JVal.str "x")] 5 9).2.1,
   (tryClaimExclusivity 10 3 0 "j1" (JVal.num 5000) [("op", JVal.str "x")] 5 9).1
     _ _ rfl⟩

theorem updateFirst_cons_match (doc : Obj) (docs : List Obj)
    (pred : Obj → Bool) (f : Obj → Obj) (hp : pred doc = true) :
    (updateFirst (doc :: docs) pred f).1 = f doc :: docs := by
  rw [updateFirst, if_pos hp]

/-- C3 counterexample: after the first failure of a fresh record (no
`errorCount`/`retriedCount` fields), the atomic update leaves
`retriedCount = 0` — not `1` as the claim states — because the pipeline seeds
an absent `retriedCount` with `-1`, while `errorCount` (seeded with `0`)
does become `1`. -/
theorem retryTransitionCountsCex :
    ((((updateRetryThresholdInDB "j1" "E"
        { jobsCollection := some [insertedRecord "j1" (JVal.num 5) [] 0],
          initialized := true, scheduledJobs := [], retriedCount := [],
          options := defaultOptions, pending := [], nextHandle := 1,
          now := 7 }).2.jobsCollection).getD []).map
      (fun rec => getKey rec "retriedCount") = [some (JVal.num 0)]) ∧
    ((((updateRetryThresholdInDB "j1" "E"
        { jobsCollection := some [insertedRecord "j1" (JVal.num 5) [] 0],
          initialized := true, scheduledJobs := [], retriedCount := [],
          options := defaultOptions, pending := [], nextHandle := 1,
          now := 7 }).2.jobsCollection).getD []).map
      (fun rec => getKey rec "errorCount") = [some (JVal.num 1)]) ∧
    ¬ ((((updateRetryThresholdInDB "j1" "E"
        { jobsCollection := some [insertedRecord "j1" (JVal.num 5) [] 0],
          initialized := true, scheduledJobs := [], retriedCount := [],
          options := defaultOptions, pending := [], nextHandle := 1,
          now := 7 }).2.jobsCollection).getD []).map
      (fun rec => getKey rec "retriedCount") = [some (JVal.num 1)]) := by
  decide

/-- C3 amended: the atomic `updateRetryThresholdInDB` pipeline, applied to the
matching record, increments `errorCount` by 1 treating an absent field as 0,
and sets `retriedCount` to one more than its value *treating an absent field
as −1* (so after the first failure of a fresh record `errorCount = 1` but
`retriedCount = 0`); in the same update it sets `isLocked = false`, appends
the serialized error to `errorMessages`, bumps `updatedAt`, and sets
`isActive = false` iff the resulting `retriedCount ≥ retryCount`, else leaves
`isActive` unchanged. -/
theorem retryTransitionFieldsAmended (jobId err : String) (s : SchedState)
    (rest : List Obj) (doc : Obj)
    (hcoll : s.jobsCollection = some (doc :: rest))
    (hmatch : getKey doc "jobId" = some (JVal.str jobId)) :
    (updateRetryThresholdInDB jobId err s).1 = .ok () ∧
    (updateRetryThresholdInDB jobId err s).2.jobsCollection =
      some (retryPipeline s.options.retryCount err s.now doc :: rest) ∧
    getKey (retryPipeline s.options.retryCount err s.now doc) "errorCount" =
      some (JVal.num (ifNullInt doc "errorCount" 0 + 1)) ∧
    getKey (retryPipeline s.options.retryCount err s.now doc) "retriedCount" =
      some (JVal.num (ifNullInt doc "retriedCount" (-1) + 1)) ∧
    getKey (retryPipeline s.options.retryCount err s.now doc) "isLocked" =
      some (JVal.bool false) ∧
    getKey (retryPipeline s.options.retryCount err s.now doc) "updatedAt" =
      some (JVal.num s.now) ∧
    getKey (retryPipeline s.options.retryCount err s.now doc) "errorMessages" =
      some (match getKey doc "errorMessages" with
            | some (.arr xs) => JVal.arr (xs ++ [err])
            | _ => JVal.arr [err]) ∧
    (ifNullInt doc "retriedCount" (-1) + 1 ≥ (s.options.retryCount : Int) →
      getKey (retryPipeline s.options.retryCount err s.now doc) "isActive" =
        some (JVal.bool false)) ∧
    (ifNullInt doc "retriedCount" (-1) + 1 < (s.options.retryCount : Int) →
      getKey (retryPipeline s.options.retryCount err s.now doc) "isActive" =
        getKey doc "isActive") := by
  have hpred : matchJobId jobId doc = true := by simp [matchJobId, hmatch]
  refine ⟨?_, ?_, getKey_retryPipeline_errorCount _ _ _ _,
    getKey_retryPipeline_retriedCount _ _ _ _,
    getKey_retryPipeline_isLocked _ _ _ _,
    getKey_retryPipeline_updatedAt _ _ _ _,
    getKey_retryPipeline_errorMessages _ _ _ _,
    fun h => getKey_retryPipeline_isActive_of_ge _ _ _ _ h,
    fun h => getKey_retryPipeline_isActive_of_lt _ _ _ _ (by omega)⟩
  · rw [updateRetryThresholdInDB, hcoll]
  · rw [updateRetryThresholdInDB, hcoll]
    simp only
    rw [updateFirst_cons_match _ _ _ _ hpred]

/-- Witness for C3's amended theorem at a fresh record. -/
theorem retryTransitionFieldsAmended_witness :
    getKey (insertedRecord "j1" (JVal.num 5) [] 0) "jobId" =
      some (JVal.str "j1") ∧
    getKey (retryPipeline 3 "E" 7 (insertedRecord "j1" (JVal.num 5) [] 0))
      "retriedCount" =
      some (JVal.num (ifNullInt (insertedRecord "j1" (JVal.num 5) [] 0)
        "retriedCount" (-1) + 1)) :=
  ⟨by decide,
    (retryTransitionFieldsAmended "j1" "E"
      { jobsCollection := some [insertedRecord "j1" (JVal.num 5) [] 0],
        initialized := true, scheduledJobs := [], retriedCount := [],
        options := defaultOptions, pending := [], nextHandle := 1, now := 7 }
      [] (insertedRecord "j1" (JVal.num 5) [] 0) rfl
      (by decide)).2.2.2.1⟩

/-- C4 counterexample: on an uninitialised scheduler, `cancelJob` does not
fail with the "Scheduler not Initialised" error (it has no initialisation
guard and instead crashes dereferencing the unassigned collection). -/
theorem uninitGuardCex :
    (cancelJob (.byId "j")
        { jobsCollection := none, initialized := false, scheduledJobs := [],
          retriedCount := [], options := defaultOptions, pending := [],
          nextHandle := 1, now := 0 }).1 =
      .error (.typeError "Cannot read properties of undefined (reading deleteOne)") ∧
    ¬ (SchedErr.typeError "Cannot read properties of undefined (reading deleteOne)" =
        SchedErr.notInitialised) := by
  exact ⟨rfl, by decide⟩

/-- C4 amended: before `init` completes, `scheduleJob`, `scheduleJobInMemory`,
`rescheduleJobs`, `getAllActiveJobsFromDB` fail fast with the
"Scheduler not Initialised" error, and `updateJob` fails with the same error
(indirectly, through its internal `scheduleJobInMemory` call, after clearing
the in-memory timer entry) — but `cancelJob` performs no initialisation check
at all: it fails with a `TypeError` from the unassigned collection, not with
the uninitialised error. -/
theorem uninitGuardAmended (s : SchedState) (jobId : String) (d : JVal)
    (m : Obj) (hinit : s.initialized = false)
    (hcoll : s.jobsCollection = none) :
    (scheduleJob d jobId m s).1 = .error .notInitialised ∧
    (scheduleJobInMemory d jobId m s).1 = .error .notInitialised ∧
    (rescheduleJobs s).1 = .error .notInitialised ∧
    (getAllActiveJobsFromDB s).1 = .error .notInitialised ∧
    (updateJob jobId d m s).1 = .error .notInitialised ∧
    (cancelJob (.byId jobId) s).1 =
      .error (.typeError "Cannot read properties of undefined (reading deleteOne)") ∧
    ¬ (cancelJob (.byId jobId) s).1 = .error .notInitialised ∧
    SchedErr.message .notInitialised = "Scheduler not Initialised" := by
  refine ⟨?_, ?_, ?_, ?_, ?_, ?_, ?_, rfl⟩
  · simp [scheduleJob, hinit]
  · simp [scheduleJobInMemory, hinit]
  · simp [rescheduleJobs, hinit]
  · simp [getAllActiveJobsFromDB, hinit]
  · simp [updateJob, scheduleJobInMemory, hinit]
  · rw [cancelJob]
    rw [deleteJobFromDB]
    have hc : (if hasKey s.scheduledJobs jobId then
        match getKey s.scheduledJobs jobId with
        | some (some h) =>
          { s with pending := s.pending.filter (fun t => t.handle != h) }
        | _ => s
      else s).jobsCollection = none := by
      split
      · split <;> simp [hcoll]
      · exact hcoll
    rw [hc]
  · rw [cancelJob]
    rw [deleteJobFromDB]
    have hc : (if hasKey s.scheduledJobs jobId then
        match getKey s.scheduledJobs jobId with
        | some (some h) =>
          { s with pending := s.pending.filter (fun t => t.handle != h) }
        | _ => s
      else s).jobsCollection = none := by
      split
      · split <;> simp [hcoll]
      · exact hcoll
    rw [hc]
    simp

/-- Witness for C4's amended theorem at a concrete uninitialised state. -/
theorem uninitGuardAmended_witness :
    ({ jobsCollection := none, initialized := false, scheduledJobs := [],
       retriedCount := [], options := defaultOptions, pending := [],
       nextHandle := 1, now := 0 } : SchedState).initialized = false ∧
    (scheduleJob (JVal.num 5) "j"
      [] { jobsCollection := none, initialized := false, scheduledJobs := [],
           retriedCount := [], options := defaultOptions, pending := [],
           nextHandle := 1, now := 0 }).1 = .error .notInitialised :=
  ⟨rfl,
    (uninitGuardAmended
      { jobsCollection := none, initialized := false, scheduledJobs := [],
        retriedCount := [], options := defaultOptions, pending := [],
        nextHandle := 1, now := 0 } "j" (JVal.num 5) [] rfl rfl).1⟩

/-- C7: scheduling a second job with the same explicit `jobId` raises
"JobId must be unique" (mapped from Mongo's duplicate-key code 11000), leaves
the state — in particular the first job's record and the in-memory timer
table — exactly as after the first `scheduleJob`, arming no timer for the
rejected call. -/
theorem duplicateJobIdUnique (jobId : String) (d d' : JVal) (m m' : Obj)
    (s : SchedState) (coll : List Obj)
    (hinit : s.initialized = true)
    (hcoll : s.jobsCollection = some coll)
    (hfresh : coll.any
      (fun doc => decide (getKey doc "jobId" = some (JVal.str jobId))) = false) :
    (scheduleJob d jobId m s).1 = .ok () ∧
    (scheduleJob d jobId m s).2.jobsCollection =
      some (coll ++ [insertedRecord jobId d m s.now]) ∧
    scheduleJob d' jobId m' (scheduleJob d jobId m s).2 =
      (.error .jobIdNotUnique, (scheduleJob d jobId m s).2) ∧
    SchedErr.message .jobIdNotUnique = "JobId must be unique" := by
  have hs1 : scheduleJob d jobId m s =
      (.ok (), armJobTimer jobId (jvalTime d - (s.now : Int))
        (wrapCallback
          { s with jobsCollection := some (coll ++ [insertedRecord jobId d m s.now]) }
          jobId d m)
        { s with jobsCollection := some (coll ++ [insertedRecord jobId d m s.now]) }) := by
    rw [scheduleJob, if_pos hinit, storeJobInDB, hcoll]
    simp only [insertUnique, getKey_insertedRecord_jobId, hfresh,
      Bool.false_eq_true, if_false]
  refine ⟨?_, ?_, ?_, rfl⟩
  · rw [hs1]
  · rw [hs1]
    simp [armJobTimer]
  · rw [hs1]
    simp only
    rw [scheduleJob]
    rw [if_pos (by simp [armJobTimer, hinit])]
    rw [storeJobInDB]
    have hcoll2 : (armJobTimer jobId (jvalTime d - (s.now : Int))
        (wrapCallback
          { s with jobsCollection := some (coll ++ [insertedRecord jobId d m s.now]) }
          jobId d m)
        { s with jobsCollection := some (coll ++ [insertedRecord jobId d m s.now]) }).jobsCollection =
        some (coll ++ [insertedRecord jobId d m s.now]) := by
      simp [armJobTimer]
    rw [hcoll2]
    simp only [insertUnique, getKey_insertedRecord_jobId]
    have hdup : (coll ++ [insertedRecord jobId d m s.now]).any
        (fun doc => decide (getKey doc "jobId" = some (JVal.str jobId))) = true := by
      rw [List.any_append]
      simp [List.any_cons, getKey_insertedRecord_jobId]
    rw [hdup]
    simp

/-- Witness for C7 at a fresh initialised scheduler. -/
theorem duplicateJobIdUnique_witness :
    (initState 10 3 false 0).initialized = true ∧
    scheduleJob (JVal.num 7) "j1" [("b", JVal.num 2)]
        (scheduleJob (JVal.num 5) "j1" [("a", JVal.num 1)]
          (initState 10 3 false 0)).2 =
      (.error .jobIdNotUnique,
       (scheduleJob (JVal.num 5) "j1" [("a", JVal.num 1)]
         (initState 10 3 false 0)).2) :=
  ⟨rfl,
    (duplicateJobIdUnique "j1" (JVal.num 5) (JVal.num 7) [("a", JVal.num 1)]
      [("b", JVal.num 2)] (initState 10 3 false 0) [] rfl rfl rfl).2.2.1⟩

theorem eraseKey_eraseKey {α : Type} (l : List (String × α)) (k : String) :
    eraseKey (eraseKey l k) k = eraseKey l k := by
  induction l with
  | nil => rfl
  | cons p ps ih =>
    by_cases hp : p.1 = k <;> simp [eraseKey, hp, ih]

theorem hasKey_eraseKey {α : Type} (l : List (String × α)) (k : String) :
    hasKey (eraseKey l k) k = false := by
  induction l with
  | nil => rfl
  | cons p ps ih =>
    by_cases hp : p.1 = k <;> simp [eraseKey, hasKey, hp, ih]

theorem deleteFirst_no_match (coll : List Obj) (pred : Obj → Bool)
    (h : coll.filter pred = []) : deleteFirst coll pred = coll := by
  induction coll with
  | nil => rfl
  | cons doc docs ih =>
    rw [List.filter_cons] at h
    by_cases hp : pred doc = true
    · simp [hp] at h
    · rw [if_neg hp] at h
      rw [deleteFirst, if_neg hp, ih h]

theorem deleteFirst_deleteFirst (coll : List Obj) (pred : Obj → Bool)
    (h : (coll.filter pred).length ≤ 1) :
    deleteFirst (deleteFirst coll pred) pred = deleteFirst coll pred := by
  induction coll with
  | nil => rfl
  | cons doc docs ih =>
    rw [List.filter_cons] at h
    by_cases hp : pred doc = true
    · rw [if_pos hp] at h
      simp only [List.length_cons] at h
      have hnil : docs.filter pred = [] :=
        List.length_eq_zero.mp (by omega : (docs.filter pred).length = 0)
      simp only [deleteFirst, hp, if_true]
      exact deleteFirst_no_match docs pred hnil
    · rw [if_neg hp] at h
      simp only [deleteFirst, hp, Bool.false_eq_true, if_false]
      rw [ih h]

/-- C8: `cancelJob` is idempotent — a second `cancelJob` with the same id is a
no-op: it returns without error and leaves the whole state (in-memory timer
table, armed timeouts, and durable store) exactly as the first call left it. -/
theorem cancelJobIdempotent (jobId : String) (s : SchedState)
    (coll : List Obj) (hcoll : s.jobsCollection = some coll)
    (huniq : (coll.filter (matchJobId jobId)).length ≤ 1) :
    cancelJob (.byId jobId) (cancelJob (.byId jobId) s).2 =
      (.ok (), (cancelJob (.byId jobId) s).2) := by
  have h1 : ∃ pend, cancelJob (.byId jobId) s =
      (.ok (),
        { s with
            pending := pend,
            scheduledJobs := eraseKey s.scheduledJobs jobId,
            jobsCollection := some (deleteFirst coll (matchJobId jobId)) }) := by
    rw [cancelJob]
    split
    · split
      · rename_i h0 hget
        refine ⟨s.pending.filter (fun t => t.handle != h0), ?_⟩
        rw [deleteJobFromDB]
        simp [hcoll]
      · refine ⟨s.pending, ?_⟩
        rw [deleteJobFromDB]
        simp [hcoll]
    · refine ⟨s.pending, ?_⟩
      rw [deleteJobFromDB]
      simp [hcoll]
  obtain ⟨pend, h1⟩ := h1
  rw [h1]
  rw [cancelJob]
  simp only
  rw [if_neg (by simp [hasKey_eraseKey])]
  rw [deleteJobFromDB]
  simp only [eraseKey_eraseKey]
  simp [deleteFirst_deleteFirst coll (matchJobId jobId) huniq]

/-- Witness for C8 after scheduling one job on a fresh scheduler. -/
theorem cancelJobIdempotent_witness :
    (scheduleJob (JVal.num 5000) "j1" [("op", JVal.str "x")]
        (initState 10 3 false 0)).2.jobsCollection =
      some [insertedRecord "j1" (JVal.num 5000) [("op", JVal.str "x")] 0] ∧
    ([insertedRecord "j1" (JVal.num 5000) [("op", JVal.str "x")] 0].filter
      (matchJobId "j1")).length ≤ 1 ∧
    cancelJob (.byId "j1")
        (cancelJob (.byId "j1")
          (scheduleJob (JVal.num 5000) "j1" [("op", JVal.str "x")]
            (initState 10 3 false 0)).2).2 =
      (.ok (), (cancelJob (.byId "j1")
        (scheduleJob (JVal.num 5000) "j1" [("op", JVal.str "x")]
          (initState 10 3 false 0)).2).2) :=
  ⟨by decide, by decide,
    cancelJobIdempotent "j1"
      (scheduleJob (JVal.num 5000) "j1" [("op", JVal.str "x")]
        (initState 10 3 false 0)).2
      [insertedRecord "j1" (JVal.num 5000) [("op", JVal.str "x")] 0]
      (by decide) (by decide)⟩

theorem hasKey_append {α : Type} (l1 l2 : List (String × α)) (k : String) :
    hasKey (l1 ++ l2) k = (hasKey l1 k || hasKey l2 k) := by
  induction l1 with
  | nil => simp [hasKey]
  | cons p ps ih =>
    by_cases hp : p.1 = k <;> simp [hasKey, hp, ih]

theorem hasKey_true_of_mem {α : Type} (l : List (String × α)) (k : String)
    (h : k ∈ l.map Prod.fst) : hasKey l k = true := by
  induction l with
  | nil => simp at h
  | cons p ps ih =>
    rcases List.mem_cons.mp h with h1 | h1
    · simp [hasKey, h1.symm]
    · by_cases hp : p.1 = k <;> simp [hasKey, hp, ih h1]

theorem eraseKey_append {α : Type} (l1 l2 : List (String × α)) (k : String) :
    eraseKey (l1 ++ l2) k = eraseKey l1 k ++ eraseKey l2 k := by
  induction l1 with
  | nil => simp [eraseKey]
  | cons p ps ih =>
    by_cases hp : p.1 = k <;> simp [eraseKey, hp, ih]

theorem eraseKey_of_not_has {α : Type} (l : List (String × α)) (k : String)
    (h : hasKey l k = false) : eraseKey l k = l := by
  induction l with
  | nil => rfl
  | cons p ps ih =>
    simp only [hasKey] at h
    by_cases hp : p.1 = k
    · simp [hp] at h
    · simp only [hp, if_false] at h
      simp [eraseKey, hp, ih h]

/-- The insert document in closed form, for metadata avoiding the reserved
keys: the metadata pairs, then the five fields the library writes. -/
theorem insertedRecord_eq (jobId : String) (d : JVal) (m : Obj) (now : Nat)
    (hm : reservedFree m) (hnd : keysNodup m) :
    insertedRecord jobId d m now =
      m ++ [("jobId", JVal.str jobId), ("dateToRunOn", d),
            ("isLocked", JVal.bool false), ("isActive", JVal.bool true),
            ("createdAt", JVal.num now)] := by
  have hspread : spreadObj [] m = m := by
    rw [spreadObj_eq_append m [] hnd (fun km _ => rfl)]
    simp
  have e1 : setKey m "jobId" (JVal.str jobId) =
      m ++ [("jobId", JVal.str jobId)] :=
    setKey_of_not_has _ _ _ (hm "jobId" (by decide))
  have e2 : setKey (m ++ [("jobId", JVal.str jobId)]) "dateToRunOn" d =
      (m ++ [("jobId", JVal.str jobId)]) ++ [("dateToRunOn", d)] :=
    setKey_of_not_has _ _ _ (by
      rw [hasKey_append, hm "dateToRunOn" (by decide)]
      simp [hasKey])
  have e3 : setKey ((m ++ [("jobId", JVal.str jobId)]) ++ [("dateToRunOn", d)])
      "isLocked" (JVal.bool false) =
      ((m ++ [("jobId", JVal.str jobId)]) ++ [("dateToRunOn", d)]) ++
        [("isLocked", JVal.bool false)] :=
    setKey_of_not_has _ _ _ (by
      rw [hasKey_append, hasKey_append, hm "isLocked" (by decide)]
      simp [hasKey])
  have e4 : setKey (((m ++ [("jobId", JVal.str jobId)]) ++ [("dateToRunOn", d)]) ++
      [("isLocked", JVal.bool false)]) "isActive" (JVal.bool true) =
      (((m ++ [("jobId", JVal.str jobId)]) ++ [("dateToRunOn", d)]) ++
        [("isLocked", JVal.bool false)]) ++ [("isActive", JVal.bool true)] :=
    setKey_of_not_has _ _ _ (by
      rw [hasKey_append, hasKey_append, hasKey_append, hm "isActive" (by decide)]
      simp [hasKey])
  have e5 : setKey ((((m ++ [("jobId", JVal.str jobId)]) ++ [("dateToRunOn", d)]) ++
      [("isLocked", JVal.bool false)]) ++ [("isActive", JVal.bool true)])
      "createdAt" (JVal.num now) =
      ((((m ++ [("jobId", JVal.str jobId)]) ++ [("dateToRunOn", d)]) ++
        [("isLocked", JVal.bool false)]) ++ [("isActive", JVal.bool true)]) ++
        [("createdAt", JVal.num now)] :=
    setKey_of_not_has _ _ _ (by
      rw [hasKey_append, hasKey_append, hasKey_append, hasKey_append,
        hm "createdAt" (by decide)]
      simp [hasKey])
  rw [insertedRecord, hspread, e1, e2, e3, e4, e5]
  simp

/-- The callback argument in closed form: `jobId`, `dateToRunOn`, then the
metadata pairs, provided the metadata does not override those two keys. -/
theorem callbackArg_eq (jobId : String) (d : JVal) (m : Obj)
    (hnd : keysNodup m)
    (hj : hasKey m "jobId" = false) (hd : hasKey m "dateToRunOn" = false) :
    callbackArg jobId d m =
      ("jobId", JVal.str jobId) :: ("dateToRunOn", d) :: m := by
  have hside : ∀ km ∈ m.map Prod.fst,
      hasKey [("jobId", JVal.str jobId), ("dateToRunOn", d)] km = false := by
    intro km hkm
    have hkmm : hasKey m km = true := hasKey_true_of_mem m km hkm
    have h1 : ¬ "jobId" = km := by
      intro h
      rw [← h] at hkmm
      rw [hj] at hkmm
      cases hkmm
    have h2 : ¬ "dateToRunOn" = km := by
      intro h
      rw [← h] at hkmm
      rw [hd] at hkmm
      cases hkmm
    simp [hasKey, h1, h2]
  rw [callbackArg, spreadObj_eq_append m _ hnd hside]
  rfl

theorem handleRetries_rearms_metadata (jobId : String) (d : JVal)
    (err : String) (m : Obj) (s : SchedState) (coll : List Obj)
    (hcoll : s.jobsCollection = some coll)
    (hnotimer : findTimer jobId s = none)
    (hnx : ¬ (getKey s.retriedCount jobId).getD 0 + 1 > s.options.retryCount) :
    findTimer jobId (handleRetries jobId d err m s).2 =
      some { handle := s.nextHandle, jobId := jobId,
             delayMs := (s.options.retryWindowInSeconds : Int) * 1000,
             cb := { jobId := jobId, dateToRunOn := d, metadata := m,
                     useLock := s.options.useLock } } := by
  rw [handleRetries, updateRetryThresholdInDB, hcoll]
  simp only [checkIfRetryExceeded]
  rw [if_neg (by simpa using hnx)]
  simp only [armJobTimer, wrapCallback, findTimer]
  rw [List.find?_append]
  have h0 : List.find? (fun t => t.jobId == jobId) s.pending = none := hnotimer
  rw [h0]
  simp [List.find?]

/-- C6 counterexample: after rehydration, the argument the callback receives
is not "exactly the metadata plus `jobId` and `dateToRunOn`": it additionally
carries the persistence fields (here `isLocked`). -/
theorem callbackMetadataCex :
    ((match findTimer "j1" (rescheduleJobs
        { jobsCollection := some [insertedRecord "j1" (JVal.num 5)
            [("op", JVal.str "x")] 0],
          initialized := true, scheduledJobs := [], retriedCount := [],
          options := defaultOptions, pending := [], nextHandle := 1,
          now := 4 }).2 with
      | some t => callbackArg t.cb.jobId t.cb.dateToRunOn t.cb.metadata
      | none => []) ≠
      callbackArg "j1" (JVal.num 5) [("op", JVal.str "x")]) ∧
    getKey (match findTimer "j1" (rescheduleJobs
        { jobsCollection := some [insertedRecord "j1" (JVal.num 5)
            [("op", JVal.str "x")] 0],
          initialized := true, scheduledJobs := [], retriedCount := [],
          options := defaultOptions, pending := [], nextHandle := 1,
          now := 4 }).2 with
      | some t => callbackArg t.cb.jobId t.cb.dateToRunOn t.cb.metadata
      | none => []) "isLocked" = some (JVal.bool false) := by
  decide

/-- C6 amended: on the initial firing and on every in-process retry the
callback argument is exactly the scheduling metadata together with `jobId`
and `dateToRunOn` and nothing else (retries re-wrap the same metadata); but
on post-rehydration firings the argument is the full stored record — the
metadata plus the persistence fields `isLocked`, `isActive`, `createdAt`
(and any retry bookkeeping) — because `rescheduleJobs` passes the whole
destructured record as metadata. -/
theorem callbackMetadataAmended (jobId : String) (d : JVal) (m : Obj)
    (err : String) (W R now now2 : Nat) (useLockFlag : Bool)
    (hm : reservedFree m) (hnd : keysNodup m) :
    callbackArg jobId d m =
      ("jobId", JVal.str jobId) :: ("dateToRunOn", d) :: m ∧
    (∀ (s : SchedState) (coll : List Obj), s.jobsCollection = some coll →
      findTimer jobId s = none →
      ¬ (getKey s.retriedCount jobId).getD 0 + 1 > s.options.retryCount →
      findTimer jobId (handleRetries jobId d err m s).2 =
        some { handle := s.nextHandle, jobId := jobId,
               delayMs := (s.options.retryWindowInSeconds : Int) * 1000,
               cb := { jobId := jobId, dateToRunOn := d, metadata := m,
                       useLock := s.options.useLock } }) ∧
    (rescheduleJobs
        { jobsCollection := some [insertedRecord jobId d m now],
          initialized := true, scheduledJobs := [], retriedCount := [],
          options := { retryWindowInSeconds := W, retryCount := R,
                       useLock := useLockFlag },
          pending := [], nextHandle := 1, now := now2 }).2.pending =
      [{ handle := 1, jobId := jobId, delayMs := jvalTime d - (now2 : Int),
         cb := { jobId := jobId, dateToRunOn := d,
                 metadata := m ++ [("isLocked", JVal.bool false),
                                   ("isActive", JVal.bool true),
                                   ("createdAt", JVal.num now)],
                 useLock := useLockFlag } }] ∧
    callbackArg jobId d (m ++ [("isLocked", JVal.bool false),
                               ("isActive", JVal.bool true),
                               ("createdAt", JVal.num now)]) =
      ("jobId", JVal.str jobId) :: ("dateToRunOn", d) ::
        (m ++ [("isLocked", JVal.bool false), ("isActive", JVal.bool true),
               ("createdAt", JVal.num now)]) := by
  have hmd_nodup : keysNodup (m ++ [("isLocked", JVal.bool false),
      ("isActive", JVal.bool true), ("createdAt", JVal.num now)]) := by
    rw [keysNodup, List.map_append, List.nodup_append]
    refine ⟨hnd, by simp only [List.map_cons, List.map_nil]; decide, ?_⟩
    intro k hk
    have hkm : hasKey m k = true := hasKey_true_of_mem m k hk
    intro hmem
    simp only [List.map_cons, List.map_nil, List.mem_cons,
      List.mem_singleton] at hmem
    rcases hmem with h | h | h
    · rw [h] at hkm
      rw [hm "isLocked" (by decide)] at hkm
      cases hkm
    · rw [h] at hkm
      rw [hm "isActive" (by decide)] at hkm
      cases hkm
    · simp at h
      rw [h] at hkm
      rw [hm "createdAt" (by decide)] at hkm
      cases hkm
  refine ⟨callbackArg_eq jobId d m hnd (hm "jobId" (by decide))
      (hm "dateToRunOn" (by decide)),
    fun s coll hcoll hnt hnx =>
      handleRetries_rearms_metadata jobId d err m s coll hcoll hnt hnx,
    ?_, ?_⟩
  · rw [rescheduleJobs]
    rw [if_pos rfl]
    rw [getAllActiveJobsFromDB]
    rw [if_pos rfl]
    simp only
    have hfilter : List.filter
        (fun doc => decide (getKey doc "isActive" = some (JVal.bool true)))
        [insertedRecord jobId d m now] = [insertedRecord jobId d m now] := by
      simp [List.filter, getKey_insertedRecord_isActive]
    rw [hfilter]
    simp only [List.foldl_cons, List.foldl_nil]
    rw [scheduleJobInMemory]
    rw [if_pos rfl]
    simp only [armJobTimer, wrapCallback]
    have hjid : jvalStr (getKey (insertedRecord jobId d m now) "jobId") = jobId := by
      rw [getKey_insertedRecord_jobId]
      rfl
    have hdd : (getKey (insertedRecord jobId d m now) "dateToRunOn").getD
        (JVal.num 0) = d := by
      rw [getKey_insertedRecord_dateToRunOn]
      rfl
    have hmd : eraseKey (eraseKey (insertedRecord jobId d m now) "jobId")
        "dateToRunOn" =
        m ++ [("isLocked", JVal.bool false), ("isActive", JVal.bool true),
              ("createdAt", JVal.num now)] := by
      rw [insertedRecord_eq jobId d m now hm hnd]
      rw [eraseKey_append, eraseKey_append]
      rw [eraseKey_of_not_has m "jobId" (hm "jobId" (by decide))]
      rw [eraseKey_of_not_has m "dateToRunOn" (hm "dateToRunOn" (by decide))]
      simp [eraseKey]
    rw [hjid, hdd, hmd]
    simp
  · refine callbackArg_eq jobId d _ hmd_nodup ?_ ?_
    · rw [hasKey_append, hm "jobId" (by decide)]
      simp [hasKey]
    · rw [hasKey_append, hm "dateToRunOn" (by decide)]
      simp [hasKey]

/-- Witness for C6's amended theorem at concrete metadata. -/
theorem callbackMetadataAmended_witness :
    reservedFree [("op", JVal.str "x")] ∧ keysNodup [("op", JVal.str "x")] ∧
    callbackArg "j1" (JVal.num 5) [("op", JVal.str "x")] =
      ("jobId", JVal.str "j1") :: ("dateToRunOn", JVal.num 5) ::
        [("op", JVal.str "x")] :=
  ⟨by decide, by decide,
    (callbackMetadataAmended "j1" (JVal.num 5) [("op", JVal.str "x")] "E"
      10 3 0 4 false (by decide) (by decide)).1⟩

/-- C10: in the callback argument the metadata is spread after `jobId` and
`dateToRunOn`, so metadata carrying one of those keys overrides the job's
actual values; in the persisted record the metadata is spread first, so the
stored fields keep the true values — whenever the metadata value differs the
callback argument and the stored record disagree on that key. -/
theorem metadataKeyCollision (jobId : String) (d : JVal) (m : Obj) (now : Nat)
    (hnd : keysNodup m) :
    (∀ v, getKey m "jobId" = some v →
      getKey (callbackArg jobId d m) "jobId" = some v ∧
      getKey (insertedRecord jobId d m now) "jobId" = some (JVal.str jobId) ∧
      (¬ v = JVal.str jobId →
        ¬ getKey (callbackArg jobId d m) "jobId" =
          getKey (insertedRecord jobId d m now) "jobId")) ∧
    (∀ u, getKey m "dateToRunOn" = some u →
      getKey (callbackArg jobId d m) "dateToRunOn" = some u ∧
      getKey (insertedRecord jobId d m now) "dateToRunOn" = some d ∧
      (¬ u = d →
        ¬ getKey (callbackArg jobId d m) "dateToRunOn" =
          getKey (insertedRecord jobId d m now) "dateToRunOn")) := by
  constructor
  · intro v hv
    have h1 : getKey (callbackArg jobId d m) "jobId" = some v :=
      getKey_spreadObj_of_get m _ _ _ hnd hv
    refine ⟨h1, getKey_insertedRecord_jobId jobId d m now, ?_⟩
    intro hne
    rw [h1, getKey_insertedRecord_jobId]
    intro hcontra
    exact hne (Option.some.inj hcontra)
  · intro u hu
    have h1 : getKey (callbackArg jobId d m) "dateToRunOn" = some u :=
      getKey_spreadObj_of_get m _ _ _ hnd hu
    refine ⟨h1, getKey_insertedRecord_dateToRunOn jobId d m now, ?_⟩
    intro hne
    rw [h1, getKey_insertedRecord_dateToRunOn]
    intro hcontra
    exact hne (Option.some.inj hcontra)

/-- Witness for C10 at metadata overriding both keys. -/
theorem metadataKeyCollision_witness :
    keysNodup [("jobId", JVal.str "fake"), ("dateToRunOn", JVal.num 9)] ∧
    getKey [("jobId", JVal.str "fake"), ("dateToRunOn", JVal.num 9)] "jobId" =
      some (JVal.str "fake") ∧
    getKey (callbackArg "j1" (JVal.num 5)
      [("jobId", JVal.str "fake"), ("dateToRunOn", JVal.num 9)]) "jobId" =
      some (JVal.str "fake") :=
  ⟨by decide, by decide,
    ((metadataKeyCollision "j1" (JVal.num 5)
      [("jobId", JVal.str "fake"), ("dateToRunOn", JVal.num 9)] 0
      (by decide)).1 (JVal.str "fake") (by decide)).1⟩

end JobStash
